import Mathlib

/-!
Verification of the plugin registration and help-aggregation core of `mmpy_bot`
(`mmpy_bot/plugins/base.py`).

The embedding is a shallow one: the mutable state of `PluginManager`
(`message_listeners`, `webhook_listeners`) is threaded explicitly, Python
dictionaries with insertion-ordered keys become association lists, compiled
regex objects become their pattern strings (Python caches compiled patterns,
so equal pattern strings yield identical key objects), and a raised exception
becomes an `Option String` component carrying the error message next to the
state that survives the raise.

Descriptor objects (`Function` / `MessageFunction` / `WebHookFunction` from
`mmpy_bot/function.py`, which is not part of the sources here) are modelled as
records of the fields that `base.py` reads, plus a numeric object identity
`fid` used to model Python object aliasing: descriptors declared on a class
are shared by all instances of that class, so repeated assignments to the
`plugin` attribute of one shared object overwrite each other.
-/

/-- Runtime settings; only the flag read by `HelpPlugin` is modelled. -/
structure Settings where
  RESPOND_CHANNEL_HELP : Bool
deriving DecidableEq, Repr

/-- Identity of a plugin instance as the registration loop sees it: a numeric
instance identity, the class name (used in error messages and help records)
and the class docstring. -/
structure PluginRef where
  pid : Nat
  className : String
  doc : Option String
deriving DecidableEq, Repr

/-- Discriminates `MessageFunction` and `WebHookFunction`; `other` stands for
a `Function` subclass that is neither, carrying the name of its runtime type
as it would appear in the raised error message. -/
inductive FuncKind where
  | message : FuncKind
  | webhook : FuncKind
  | other : String → FuncKind
deriving DecidableEq, Repr

/-- True for the two descriptor kinds the registration loop accepts. -/
def FuncKind.isSupported : FuncKind → Bool
  | .message => true
  | .webhook => true
  | .other _ => false

/-- True exactly for message-typed descriptors. -/
def FuncKind.isMessage : FuncKind → Bool
  | .message => true
  | _ => false

/-- True exactly for webhook-typed descriptors. -/
def FuncKind.isWebhook : FuncKind → Bool
  | .webhook => true
  | _ => false

/-- A handler descriptor: the fields of a `Function` object that `base.py`
reads. `fid` is the Python object identity, `callable` the identity of the
wrapped plain function, `matcher` the pattern string of the compiled regex,
and `plugin` the owning-plugin attribute assigned by the manager. -/
structure FunctionData where
  fid : Nat
  kind : FuncKind
  matcher : String
  callable : Nat
  plugin : Option PluginRef
  is_coroutine : Bool
  direct_only : Bool
  needs_mention : Bool
  is_click_function : Bool
  docstring : Option String
  metadata : List (String × String)
deriving DecidableEq, Repr

/-- One attribute of a plugin instance, as `dir` plus `getattr` yields it:
either a descriptor (with the sibling descriptors stacked onto it) or some
attribute that is not a `Function` and is skipped by the loop. -/
inductive Attr where
  | func : String → FunctionData → List FunctionData → Attr
  | nonFunc : String → Attr
deriving DecidableEq, Repr

/-- The descriptors the registration loop walks for one attribute: the
attribute itself followed by its siblings, or nothing for a non-descriptor. -/
def Attr.members : Attr → List FunctionData
  | .func _ root sibs => root :: sibs
  | .nonFunc _ => []

/-- A plugin instance: its identity, its attributes at construction time (in
the traversal order of `dir`, which sorts names), and the effect of its
`initialize` method on those attributes (the base class leaves them
unchanged; `HelpPlugin` conditionally stacks one more registration). -/
structure PluginData where
  ref : PluginRef
  attrs0 : List Attr
  initAttrs : Settings → List Attr → List Attr

/-- Effect of the base `Plugin.initialize` on the attributes: none. -/
def Plugin.base_init_attrs : Settings → List Attr → List Attr := fun _ a => a

/-- Attributes of a plugin after its `initialize` method ran. -/
def PluginData.postAttrs (P : PluginData) (s : Settings) : List Attr :=
  P.initAttrs s P.attrs0

/-- A routing table: a mapping from pattern to ordered bucket of descriptors,
with key insertion order preserved, as a Python `defaultdict(list)`. -/
abbrev Table := List (String × List FunctionData)

/-- Bucket of a pattern; the empty list when the key is absent, matching the
read behaviour relevant here (`defaultdict` lookups in the source only ever
append). -/
def lookupTable (t : Table) (p : String) : List FunctionData :=
  match t with
  | [] => []
  | (q, b) :: rest => if q = p then b else lookupTable rest p

/-- Model of `self.listeners[matcher].append(function)` on a
`defaultdict(list)`: append into an existing bucket, or create the key at the
end of the insertion order. -/
def appendListener (t : Table) (p : String) (f : FunctionData) : Table :=
  match t with
  | [] => [(p, [f])]
  | (q, b) :: rest =>
      if q = p then (q, b ++ [f]) :: rest else (q, b) :: appendListener rest p f

/-- All descriptors stored in a table, in key insertion order and bucket
order; this is the iteration order of `listeners.items()`. -/
def tableFlatten (t : Table) : List FunctionData :=
  t.flatMap (fun e => e.2)

/-- The two routing tables of a `PluginManager`. -/
structure Tables where
  message_listeners : Table
  webhook_listeners : Table
deriving DecidableEq, Repr

/-- Tables of a freshly constructed manager. -/
def Tables.empty : Tables := ⟨[], []⟩

/-- State of a `PluginManager` object: the plugin sequence given to the
constructor and the two routing tables (`settings` stays `None` throughout
`base.py` and is omitted). -/
structure Manager where
  plugins : List PluginData
  message_listeners : Table
  webhook_listeners : Table

/-- Model of `PluginManager.__init__`: store the plugins, start with empty
routing tables. -/
def PluginManager.construct (plugins : List PluginData) : Manager :=
  { plugins := plugins, message_listeners := [], webhook_listeners := [] }

/-- The `TypeError` message raised for a descriptor that is neither message-
nor webhook-typed (the embedding renders `type(function)` as the bare type
name). -/
def typeErrMsg (className ty : String) : String :=
  className ++ " has a function of unsupported type " ++ ty ++ "."

/-- Inner loop of `initialize_manager`: walk `[attribute] + attribute.siblings`,
assign the `plugin` attribute of each descriptor, and route it into the table
of its kind; an unsupported descriptor raises, keeping the tables built so
far. -/
def registerFns (t : Tables) (ref : PluginRef) :
    List FunctionData → Tables × Option String
  | [] => (t, none)
  | f :: rest =>
      let fr := { f with plugin := some ref }
      match f.kind with
      | .message =>
          registerFns
            { t with message_listeners := appendListener t.message_listeners f.matcher fr }
            ref rest
      | .webhook =>
          registerFns
            { t with webhook_listeners := appendListener t.webhook_listeners f.matcher fr }
            ref rest
      | .other ty => (t, some (typeErrMsg ref.className ty))

/-- Middle loop of `initialize_manager`: walk the attributes of one plugin,
skipping attributes that are not `Function` instances. -/
def registerAttrs (t : Tables) (ref : PluginRef) :
    List Attr → Tables × Option String
  | [] => (t, none)
  | a :: rest =>
      match registerFns t ref a.members with
      | (t1, none) => registerAttrs t1 ref rest
      | (t1, some e) => (t1, some e)

/-- Outer loop of `initialize_manager`: call each plugin `initialize` (whose
modelled effect is on the attribute list) and register its descriptors; a
raise stops the walk immediately. -/
def initPlugins (t : Tables) (s : Settings) :
    List PluginData → Tables × Option String
  | [] => (t, none)
  | P :: rest =>
      match registerAttrs t P.ref (P.postAttrs s) with
      | (t1, none) => initPlugins t1 s rest
      | (t1, some e) => (t1, some e)

/-- Model of `PluginManager.initialize_manager(driver, settings)`: the
resulting manager state together with the message of the `TypeError` raised,
if any. The driver argument is irrelevant to the modelled state. -/
def PluginManager.init_manager (m : Manager) (_driver : Nat) (s : Settings) :
    Manager × Option String :=
  match initPlugins ⟨m.message_listeners, m.webhook_listeners⟩ s m.plugins with
  | (t, e) =>
      ({ m with message_listeners := t.message_listeners,
                webhook_listeners := t.webhook_listeners }, e)

/-- The sequence of (discovering plugin, descriptor) pairs that the loops of
`initialize_manager` visit, in processing order. -/
def discoverySeq (s : Settings) (ps : List PluginData) :
    List (PluginRef × FunctionData) :=
  ps.flatMap fun P =>
    (P.postAttrs s).flatMap fun a => a.members.map fun f => (P.ref, f)

/-- A descriptor as it is stored into a routing bucket: the descriptor with
its `plugin` attribute set to the discovering plugin. -/
def setOwner (e : PluginRef × FunctionData) : FunctionData :=
  { e.2 with plugin := some e.1 }

/-- Flat reformulation of the three nested loops over the discovery
sequence; the nested definition is proved equal to it below. -/
def registerSeq (t : Tables) :
    List (PluginRef × FunctionData) → Tables × Option String
  | [] => (t, none)
  | (ref, f) :: rest =>
      match f.kind with
      | .message =>
          registerSeq
            { t with message_listeners :=
                appendListener t.message_listeners f.matcher (setOwner (ref, f)) }
            rest
      | .webhook =>
          registerSeq
            { t with webhook_listeners :=
                appendListener t.webhook_listeners f.matcher (setOwner (ref, f)) }
            rest
      | .other ty => (t, some (typeErrMsg ref.className ty))

/-- The value of the `plugin` attribute of the shared descriptor object with
identity `fid` after all assignments of the registration walk ran: the last
plugin that discovered it. Descriptors declared on a plugin class are one
object shared by every instance of that class, so later assignments overwrite
earlier ones. -/
def finalOwner (seq : List (PluginRef × FunctionData)) (fid : Nat) :
    Option PluginRef :=
  ((seq.filter fun e => e.2.fid == fid).getLast?).map (fun e => e.1)

/-- Modelled from the spec: `split_docstring` from `mmpy_bot/utils.py` is not
among the sources; per the spec it yields the doc summary (the first line) and
the full text of a docstring. A missing docstring yields empty strings. -/
def split_docstring : Option String → String × String
  | none => ("", "")
  | some d => (⟨firstLineChars d.data⟩, d)
where
  firstLineChars : List Char → List Char
    | [] => []
    | c :: cs => if c == '\n' then [] else c :: firstLineChars cs

/-- Lookup in the descriptor metadata mapping, as `dict.get`. -/
def metaGet (md : List (String × String)) (k : String) : Option String :=
  match md.find? (fun e => e.1 == k) with
  | some e => some e.2
  | none => none

/-- The help record built by `generate_plugin_help` for one routing-table
entry (the dataclass `FunctionInfo` of `base.py`). -/
structure FunctionInfo where
  help_type : String
  location : String
  function : FunctionData
  pattern : String
  plugin_docheader : String
  plugin_docfull : String
  function_docheader : String
  function_docfull : String
  direct : Bool
  mention : Bool
  is_click : Bool
  metadata : List (String × String)
deriving DecidableEq, Repr

/-- The `FunctionInfo` record for a descriptor under a given table key. For a
message descriptor the scope flags are its own, for a webhook descriptor they
are false. The plugin docstring is read through the `plugin` attribute; the
kind and `plugin` fields are total here, the raising paths are handled in
`genOne`. -/
def mkRecord (pattern : String) (f : FunctionData) : FunctionInfo :=
  { help_type :=
      match f.kind with
      | .message => "message"
      | .webhook => "webhook"
      | .other _ => ""
    location :=
      match f.plugin with
      | some r => r.className
      | none => "NoneType"
    function := f
    pattern := pattern
    plugin_docheader := (split_docstring (f.plugin.bind fun r => r.doc)).1
    plugin_docfull := (split_docstring (f.plugin.bind fun r => r.doc)).2
    function_docheader := (split_docstring f.docstring).1
    function_docfull := (split_docstring f.docstring).2
    direct :=
      match f.kind with
      | .message => f.direct_only
      | _ => false
    mention :=
      match f.kind with
      | .message => f.needs_mention
      | _ => false
    is_click := f.is_click_function
    metadata := f.metadata }

/-- One step of `generate_plugin_help`: a record for a supported descriptor,
the `NotImplementedError` message for anything else (the embedding renders
`type(function)` as the bare type name). -/
def genOne (pattern : String) (f : FunctionData) : Except String FunctionInfo :=
  match f.kind with
  | .other ty => .error ("Unknown/Unsupported listener type: " ++ ty)
  | _ => .ok (mkRecord pattern f)

/-- Records for one bucket, failing at the first unsupported descriptor. -/
def genFns (pattern : String) : List FunctionData → Except String (List FunctionInfo)
  | [] => .ok []
  | f :: rest =>
      match genOne pattern f, genFns pattern rest with
      | .ok r, .ok l => .ok (r :: l)
      | .error e, _ => .error e
      | _, .error e => .error e

/-- Model of `generate_plugin_help(listeners)`: one record per stored
descriptor, walking the table in key insertion order. -/
def generate_plugin_help : Table → Except String (List FunctionInfo)
  | [] => .ok []
  | (p, fns) :: rest =>
      match genFns p fns, generate_plugin_help rest with
      | .ok a, .ok b => .ok (a ++ b)
      | .error e, _ => .error e
      | _, .error e => .error e

/-- Model of `PluginManager.get_help`: records of the message table followed
by records of the webhook table. -/
def PluginManager.get_help (m : Manager) : Except String (List FunctionInfo) :=
  match generate_plugin_help m.message_listeners,
        generate_plugin_help m.webhook_listeners with
  | .ok a, .ok b => .ok (a ++ b)
  | .error e, _ => .error e
  | _, .error e => .error e

/-- The help records of a manager as a total function; it agrees with the
`ok` value of `get_help` whenever every stored descriptor is supported and
each bucket is keyed by the pattern of its members (both hold after a
successful `init_manager`). -/
def helpRecords (m : Manager) : List FunctionInfo :=
  (tableFlatten m.message_listeners).map (fun f => mkRecord f.matcher f)
    ++ (tableFlatten m.webhook_listeners).map (fun f => mkRecord f.matcher f)

/-- Strict comparison of characters by code point, as Python compares the
characters of a string. -/
def charLtB (a b : Char) : Bool := decide (a.val.toNat < b.val.toNat)

/-- Strict lexicographic comparison of character lists by code points; this
is how Python compares strings. -/
def lexLtB : List Char → List Char → Bool
  | [], [] => false
  | [], _ :: _ => true
  | _ :: _, [] => false
  | c :: cs, d :: ds => charLtB c d || (c == d && lexLtB cs ds)

/-- Python string comparison, strict form. -/
def strLtB (a b : String) : Bool := lexLtB a.data b.data

/-- Python string comparison, non-strict form of the same total order. -/
def strLeB (a b : String) : Bool := ! strLtB b a

/-- Python comparison of the three-string sort key tuples: lexicographic over
the component string order. -/
def keyLE (a b : String × String × String) : Bool :=
  strLtB a.1 b.1
    || (a.1 == b.1
        && (strLtB a.2.1 b.2.1 || (a.2.1 == b.2.1 && strLeB a.2.2 b.2.2)))

/-- The pattern with every leading character from the set stripped by
`lstrip` in `custom_sort` removed. -/
def lstripChars (p : String) : String :=
  ⟨p.data.dropWhile (fun c => c == '^' || c == '[' || c == '(' || c == '-')⟩

/-- The `custom_sort` key of `HelpPlugin.get_help_string`: category (absent
first as the empty string), help type, pattern with leading markup stripped. -/
def custom_sort (rec : FunctionInfo) : String × String × String :=
  ((metaGet rec.metadata "category").getD "", rec.help_type, lstripChars rec.pattern)

/-- The comparator `sorted(..., key=custom_sort)` effectively uses. -/
def recLE (a b : FunctionInfo) : Bool := keyLE (custom_sort a) (custom_sort b)

/-- The fixed two header lines of the help string. -/
def helpPreamble : String :=
  "### The following functions have been registered:\n\n"
    ++ "###### `(*)` require the use of `@botname`, "
    ++ "`(+)` can only be used in direct message\n"

/-- The category header line, with a missing category shown as
`uncategorized`. -/
def renderCategoryHeader (c : Option String) : String :=
  "Category `"
    ++ (match c with
        | none => "uncategorized"
        | some c2 => c2)
    ++ "`:\n"

/-- One help line of `get_help_string` for a record: public syntax (the
`human_description` metadata override or else the raw pattern), the scope
markers, and the doc summary. -/
def renderLine (h : FunctionInfo) : String :=
  let cmd := (metaGet h.metadata "human_description").getD h.pattern
  let direct := if h.direct then "`(*)`" else ""
  let mention := if h.mention then "`(+)`" else ""
  if h.help_type = "webhook" then
    "- `" ++ cmd ++ "` " ++ direct ++ " " ++ mention ++ " - (webhook) "
      ++ h.function_docheader ++ "\n"
  else
    if h.function_docheader = "" then
      "- `" ++ cmd ++ "` " ++ direct ++ " " ++ mention ++ "\n"
    else
      "- `" ++ cmd ++ "` " ++ direct ++ " " ++ mention ++ " - "
        ++ h.function_docheader ++ "\n"

/-- The record loop of `get_help_string`: the running `old_category` state
starts as `None` and a category header is emitted whenever the category of
the current record differs from it. -/
def helpBody : Option String → List FunctionInfo → String
  | _, [] => ""
  | old_category, h :: rest =>
      let category := metaGet h.metadata "category"
      if category = old_category then renderLine h ++ helpBody old_category rest
      else renderCategoryHeader category ++ renderLine h ++ helpBody category rest

/-- Stable insertion of an element into a list: the element goes in front of
the first position whose entry it compares less-equal to. -/
def insertLe {α : Type} (le : α → α → Bool) (a : α) : List α → List α
  | [] => [a]
  | b :: l => if le a b then a :: b :: l else b :: insertLe le a l

/-- Stable sort by a boolean comparator, the embedding of the Python builtin
`sorted`: a stable sort is unique for a total preorder, so any stable
algorithm represents it; this one is structurally recursive. -/
def sortStable {α : Type} (le : α → α → Bool) : List α → List α
  | [] => []
  | a :: l => insertLe le a (sortStable le l)

/-- Model of `HelpPlugin.get_help_string` for a given manager: the preamble,
then the records sorted stably by `custom_sort`, grouped under category
headers. -/
def HelpPlugin.get_help_string (m : Manager) : Except String String :=
  match PluginManager.get_help m with
  | .error e => .error e
  | .ok recs => .ok (helpPreamble ++ helpBody none (sortStable recLE recs))

/-- The sort key as the claim words it: the category annotation if present
else the empty string, the handler kind with message before webhook, and the
pattern text with leading characters from the set caret, bracket, paren,
dash stripped. -/
def specKey (rec : FunctionInfo) : String × Nat × String :=
  ((metaGet rec.metadata "category").getD "",
   (if rec.help_type = "message" then 0 else 1),
   lstripChars rec.pattern)

/-- Lexicographic order on the claim-side composite key. -/
def specKeyLE (a b : String × Nat × String) : Prop :=
  strLtB a.1 b.1 = true
    ∨ (a.1 = b.1 ∧ (a.2.1 < b.2.1 ∨ (a.2.1 = b.2.1 ∧ strLeB a.2.2 b.2.2 = true)))

/-- Order on records induced by the claim-side composite key. -/
def specLE (a b : FunctionInfo) : Prop := specKeyLE (specKey a) (specKey b)

/-- Header emitted for a record given the category of the previous record in
the sorted sequence (`none` before the first record): present exactly when
the categories differ, with a missing category rendered `uncategorized`. -/
def specHeaderAt (h : FunctionInfo) (prev : Option String) : String :=
  if metaGet h.metadata "category" = prev then ""
  else renderCategoryHeader (metaGet h.metadata "category")

/-- The body of the help string as the claim words it: for each position of
the sorted sequence, a category header exactly where the category differs
from the category of the previous record, then the help line. -/
def specBody (recs : List FunctionInfo) : String :=
  ((recs.zip ((none : Option String) :: recs.map (fun h => metaGet h.metadata "category"))).map
      (fun hp => specHeaderAt hp.1 hp.2 ++ renderLine hp.1)).foldr
    (fun piece acc => piece ++ acc) ""

/-- State of a `Plugin` instance outside the attribute walk: the three
references stored by `Plugin.initialize` and the class docstring captured by
`Plugin.__init__`. -/
structure PluginState where
  driver : Option Nat
  plugin_manager : Option Nat
  settings : Option Settings
  docstring : Option String
deriving DecidableEq, Repr

/-- Model of `Plugin.__init__`: no references stored yet; `docstring` is the
subclass docstring, or `None` when it equals the base class docstring. -/
def Plugin.construct (doc : Option String) : PluginState :=
  { driver := none, plugin_manager := none, settings := none, docstring := doc }

/-- Model of `Plugin.initialize(driver, plugin_manager, settings)` from
`base.py`: store the three references. The method body has no guard and no
raise; it overwrites whatever was stored before. -/
def Plugin.init_plugin (p : PluginState) (driver plugin_manager : Nat)
    (settings : Settings) : PluginState :=
  { p with driver := some driver, plugin_manager := some plugin_manager,
           settings := some settings }

/-- The shared threadpool of the driver, as the queue of submitted tasks. -/
structure DriverState where
  threadpool : List (FunctionData × Nat × List String)
deriving DecidableEq, Repr

/-- Model of `Plugin.call_function(function, event, groups)`: for a coroutine
function the call is awaited in place (returned as the second component, the
pool untouched); otherwise the task triple is submitted to the driver
threadpool and nothing is awaited or observed (second component `none`). -/
def Plugin.call_function (d : DriverState) (f : FunctionData) (event : Nat)
    (groups : List String) :
    DriverState × Option (FunctionData × Nat × List String) :=
  if f.is_coroutine then (d, some (f, event, groups))
  else ({ threadpool := d.threadpool ++ [(f, event, groups)] }, none)

/-- Modelled from the spec: the `listen_to` registration decorator of
`mmpy_bot/function.py` (not among the sources) applied to an
already-registered descriptor: it appends a fresh sibling descriptor with the
new pattern and flags but the same underlying callable to the siblings list
of the original descriptor, and returns the original. `newFid` is the object
identity of the fresh descriptor. -/
def listen_to_stacked (pattern : String) (needs_mention direct_only : Bool)
    (md : List (String × String)) (newFid : Nat) : Attr → Attr
  | .func n root sibs =>
      let sib : FunctionData :=
        { fid := newFid, kind := FuncKind.message, matcher := pattern,
          callable := root.callable, plugin := none, is_coroutine := root.is_coroutine,
          direct_only := direct_only, needs_mention := needs_mention,
          is_click_function := root.is_click_function, docstring := root.docstring,
          metadata := md }
      .func n root (sibs ++ [sib])
  | a => a

/-- One registration in a stack: its descriptor kind, pattern, scope flags
and metadata. -/
structure RegSpec where
  rkind : FuncKind
  pattern : String
  needs_mention : Bool
  direct_only : Bool
  metadata : List (String × String)
deriving DecidableEq, Repr

/-- Modelled from the spec: the descriptor produced by one registration
decorator wrapping the plain callable `c`; `fid` is its object identity. -/
def regDescriptor (r : RegSpec) (fid c : Nat) (doc : Option String)
    (isCoro : Bool) : FunctionData :=
  { fid := fid, kind := r.rkind, matcher := r.pattern, callable := c,
    plugin := none, is_coroutine := isCoro, direct_only := r.direct_only,
    needs_mention := r.needs_mention, is_click_function := false,
    docstring := doc, metadata := r.metadata }

/-- Sibling descriptors for the further registrations of a stack, with
object identities counting up from `i`. -/
def stackSibs (c : Nat) (doc : Option String) (isCoro : Bool) :
    Nat → List RegSpec → List FunctionData
  | _, [] => []
  | i, r :: rs => regDescriptor r i c doc isCoro :: stackSibs c doc isCoro (i + 1) rs

/-- Modelled from the spec: stacking `1 + rest.length` registrations on one
handler with callable `c`: the first-applied registration wraps the callable
and stays the visible attribute, every further one appends a sibling with the
same underlying callable. -/
def stackRegs (name : String) (base c : Nat) (doc : Option String)
    (isCoro : Bool) (first : RegSpec) (rest : List RegSpec) : Attr :=
  .func name (regDescriptor first base c doc isCoro)
    (stackSibs c doc isCoro (base + 1) rest)

/-- The descriptor behind the `help` attribute of `HelpPlugin`, declared by
`listen_to` with pattern `^help$` and `needs_mention=True` at class
definition time; its callable and object identity are fixed as 0. -/
def HelpPlugin.helpFn : FunctionData :=
  { fid := 0, kind := FuncKind.message, matcher := "^help$", callable := 0,
    plugin := none, is_coroutine := true, direct_only := false,
    needs_mention := true, is_click_function := false,
    docstring := some "Shows this help information.", metadata := [] }

/-- Effect of `HelpPlugin.initialize` on the attributes: when the setting
`RESPOND_CHANNEL_HELP` is enabled, rebind the `help` attribute to
`listen_to("^!help$")(self.help)`, which stacks one more registration onto
the existing descriptor; otherwise leave the attributes unchanged. The
reference-storing part of `initialize` is `Plugin.init_plugin`. -/
def HelpPlugin.init_attrs (s : Settings) (attrs : List Attr) : List Attr :=
  if s.RESPOND_CHANNEL_HELP then
    attrs.map fun a =>
      match a with
      | .func nm root sibs =>
          if nm = "help" then listen_to_stacked "^!help$" false false [] 1 (.func nm root sibs)
          else .func nm root sibs
      | a2 => a2
  else attrs

/-- A `HelpPlugin` instance as the registration loop sees it. -/
def HelpPlugin.data (pid : Nat) : PluginData :=
  { ref := { pid := pid, className := "HelpPlugin",
             doc := some "Provide a `help` function that lists functions provided by all plugins." },
    attrs0 := [.func "help" HelpPlugin.helpFn []],
    initAttrs := HelpPlugin.init_attrs }

/-- Fixture: settings with the channel help flag off. -/
def exSettings : Settings := { RESPOND_CHANNEL_HELP := false }

/-- Fixture: a coroutine message handler with pattern `foo`. -/
def exMsgA : FunctionData :=
  { fid := 10, kind := FuncKind.message, matcher := "foo", callable := 1,
    plugin := none, is_coroutine := true, direct_only := false,
    needs_mention := false, is_click_function := false,
    docstring := some "Doc A.", metadata := [] }

/-- Fixture: a blocking message handler with pattern `^foo`, whose stripped
sort key collides with the key of `exMsgA`. -/
def exMsgB : FunctionData :=
  { fid := 11, kind := FuncKind.message, matcher := "^foo", callable := 2,
    plugin := none, is_coroutine := false, direct_only := false,
    needs_mention := false, is_click_function := false,
    docstring := some "Doc B.", metadata := [] }

/-- Fixture: a message handler with pattern `bar`, whose sort key differs
from every other fixture key. -/
def exMsgC : FunctionData :=
  { fid := 12, kind := FuncKind.message, matcher := "bar", callable := 3,
    plugin := none, is_coroutine := true, direct_only := true,
    needs_mention := false, is_click_function := false,
    docstring := some "Doc C.", metadata := [] }

/-- Fixture: a webhook handler with identifier `hook1`. -/
def exWhFn : FunctionData :=
  { fid := 13, kind := FuncKind.webhook, matcher := "hook1", callable := 4,
    plugin := none, is_coroutine := false, direct_only := false,
    needs_mention := false, is_click_function := false,
    docstring := some "Hook doc.", metadata := [] }

/-- Fixture: a descriptor of an unsupported kind (a bare `Function`). -/
def exBadFn : FunctionData :=
  { fid := 14, kind := FuncKind.other "Function", matcher := "oops", callable := 5,
    plugin := none, is_coroutine := false, direct_only := false,
    needs_mention := false, is_click_function := false,
    docstring := none, metadata := [] }

/-- Fixture plugin holding `exMsgA`. -/
def exPluginA : PluginData :=
  { ref := { pid := 1, className := "A", doc := none },
    attrs0 := [.func "h" exMsgA []], initAttrs := Plugin.base_init_attrs }

/-- Fixture plugin holding `exMsgB`. -/
def exPluginB : PluginData :=
  { ref := { pid := 2, className := "B", doc := none },
    attrs0 := [.func "h" exMsgB []], initAttrs := Plugin.base_init_attrs }

/-- Fixture plugin holding `exMsgC`. -/
def exPluginC : PluginData :=
  { ref := { pid := 3, className := "C", doc := none },
    attrs0 := [.func "h" exMsgC []], initAttrs := Plugin.base_init_attrs }

/-- Fixture plugin holding the webhook handler `exWhFn`. -/
def exPluginW : PluginData :=
  { ref := { pid := 4, className := "W", doc := none },
    attrs0 := [.func "wh" exWhFn []], initAttrs := Plugin.base_init_attrs }

/-- Fixture plugin whose offending attribute is named `alpha`. -/
def exPlugAlpha : PluginData :=
  { ref := { pid := 5, className := "P", doc := none },
    attrs0 := [.func "alpha" exBadFn []], initAttrs := Plugin.base_init_attrs }

/-- Fixture plugin identical to `exPlugAlpha` except that the offending
attribute is named `beta`. -/
def exPlugBeta : PluginData :=
  { ref := { pid := 5, className := "P", doc := none },
    attrs0 := [.func "beta" exBadFn []], initAttrs := Plugin.base_init_attrs }

/-- Fixture plugin with one supported descriptor followed by an unsupported
one. -/
def exMixedPlugin : PluginData :=
  { ref := { pid := 6, className := "M", doc := none },
    attrs0 := [.func "a" exMsgA [], .func "b" exBadFn []],
    initAttrs := Plugin.base_init_attrs }

/-- Fixture: a class-level descriptor shared by two instances of one plugin
class (both instances see the same object, so the same fid). -/
def exSharedFn : FunctionData :=
  { fid := 7, kind := FuncKind.message, matcher := "ping", callable := 9,
    plugin := none, is_coroutine := true, direct_only := false,
    needs_mention := false, is_click_function := false,
    docstring := some "Ping doc.", metadata := [] }

/-- Fixture: first instance of the class declaring `exSharedFn`. -/
def exFake1 : PluginData :=
  { ref := { pid := 1, className := "FakePlugin", doc := none },
    attrs0 := [.func "shared" exSharedFn []], initAttrs := Plugin.base_init_attrs }

/-- Fixture: second instance of the class declaring `exSharedFn`. -/
def exFake2 : PluginData :=
  { ref := { pid := 2, className := "FakePlugin", doc := none },
    attrs0 := [.func "shared" exSharedFn []], initAttrs := Plugin.base_init_attrs }

/-- Fixture registration: `listen_to("async_pattern")`. -/
def exReg1 : RegSpec :=
  { rkind := FuncKind.message, pattern := "async_pattern",
    needs_mention := false, direct_only := false, metadata := [] }

/-- Fixture registration: `listen_to("another_async_pattern", direct_only=True)`. -/
def exReg2 : RegSpec :=
  { rkind := FuncKind.message, pattern := "another_async_pattern",
    needs_mention := false, direct_only := true, metadata := [] }

/-- Fixture plugin with a doubly decorated handler, as the stacked
`my_async_function` of the unit tests. -/
def exStackPlugin : PluginData :=
  { ref := { pid := 8, className := "S", doc := none },
    attrs0 := [stackRegs "my_async_function" 30 6 (some "Async doc.") true exReg1 [exReg2]],
    initAttrs := Plugin.base_init_attrs }

/-- Fixture registration reused twice under one identical pattern. -/
def exRegDup : RegSpec :=
  { rkind := FuncKind.message, pattern := "dup",
    needs_mention := false, direct_only := false, metadata := [] }

/-- Fixture plugin registering the same pattern twice from one handler. -/
def exDupPlugin : PluginData :=
  { ref := { pid := 9, className := "D", doc := none },
    attrs0 := [stackRegs "dup_fn" 40 7 none false exRegDup [exRegDup]],
    initAttrs := Plugin.base_init_attrs }

deriving instance DecidableEq for Except

lemma registerFns_eq_registerSeq (t : Tables) (ref : PluginRef)
    (fns : List FunctionData) :
    registerFns t ref fns = registerSeq t (fns.map (fun f => (ref, f))) := by
  induction fns generalizing t with
  | nil => rfl
  | cons f rest ih =>
      cases hk : f.kind <;>
        simp [registerFns, registerSeq, hk, setOwner, ih]

lemma registerSeq_append (t : Tables) (xs ys : List (PluginRef × FunctionData)) :
    registerSeq t (xs ++ ys)
      = match registerSeq t xs with
        | (t1, none) => registerSeq t1 ys
        | (t1, some e) => (t1, some e) := by
  induction xs generalizing t with
  | nil => rfl
  | cons e rest ih =>
      obtain ⟨ref, f⟩ := e
      simp only [List.cons_append, registerSeq]
      cases f.kind <;> simp [ih]

lemma registerAttrs_eq_registerSeq (t : Tables) (ref : PluginRef)
    (attrs : List Attr) :
    registerAttrs t ref attrs
      = registerSeq t (attrs.flatMap fun a => a.members.map fun f => (ref, f)) := by
  induction attrs generalizing t with
  | nil => rfl
  | cons a rest ih =>
      simp only [registerAttrs, List.flatMap_cons, registerSeq_append,
        ← registerFns_eq_registerSeq]
      cases h : registerFns t ref a.members with
      | mk t1 e => cases e <;> simp [ih]

lemma initPlugins_eq_registerSeq (t : Tables) (s : Settings)
    (ps : List PluginData) :
    initPlugins t s ps = registerSeq t (discoverySeq s ps) := by
  induction ps generalizing t with
  | nil => rfl
  | cons P rest ih =>
      simp only [initPlugins, discoverySeq, List.flatMap_cons, registerSeq_append,
        ← registerAttrs_eq_registerSeq]
      cases h : registerAttrs t P.ref (P.postAttrs s) with
      | mk t1 e => cases e <;> simp [ih, discoverySeq]

lemma init_manager_eq_registerSeq (m : Manager) (d : Nat) (s : Settings) :
    PluginManager.init_manager m d s
      = (let r := registerSeq ⟨m.message_listeners, m.webhook_listeners⟩
             (discoverySeq s m.plugins)
         ({ m with message_listeners := r.1.message_listeners,
                   webhook_listeners := r.1.webhook_listeners }, r.2)) := by
  simp only [PluginManager.init_manager, initPlugins_eq_registerSeq]

lemma lookup_appendListener_same (t : Table) (p : String) (f : FunctionData) :
    lookupTable (appendListener t p f) p = lookupTable t p ++ [f] := by
  induction t with
  | nil => simp [appendListener, lookupTable]
  | cons e rest ih =>
      obtain ⟨q, b⟩ := e
      by_cases h : q = p <;> simp [appendListener, lookupTable, h, ih]

lemma lookup_appendListener_other (t : Table) (p q : String) (f : FunctionData)
    (h : q ≠ p) :
    lookupTable (appendListener t p f) q = lookupTable t q := by
  induction t with
  | nil => simp [appendListener, lookupTable, Ne.symm h]
  | cons e rest ih =>
      obtain ⟨r, b⟩ := e
      by_cases hr : r = p
      · have hrq : ¬ r = q := fun hrq => h (hrq ▸ hr)
        simp only [appendListener, if_pos hr, lookupTable]
        simp [hrq]
      · simp only [appendListener, if_neg hr, lookupTable]
        by_cases hq : r = q
        · simp [hq]
        · simp [hq, ih]

lemma tableFlatten_appendListener (t : Table) (p : String) (f : FunctionData) :
    (tableFlatten (appendListener t p f)).Perm (f :: tableFlatten t) := by
  induction t with
  | nil => simp [appendListener, tableFlatten]
  | cons e rest ih =>
      obtain ⟨q, b⟩ := e
      by_cases h : q = p
      · simp only [appendListener, if_pos h, tableFlatten, List.flatMap_cons]
        have h1 : (b ++ [f]) ++ rest.flatMap (fun e => e.2)
            = b ++ (f :: rest.flatMap (fun e => e.2)) := by simp
        rw [h1]
        exact List.perm_middle
      · simp only [appendListener, if_neg h, tableFlatten, List.flatMap_cons]
        exact (List.Perm.append_left b ih).trans List.perm_middle

lemma registerSeq_none_iff (t : Tables) (seq : List (PluginRef × FunctionData)) :
    (registerSeq t seq).2 = none ↔ ∀ e ∈ seq, e.2.kind.isSupported = true := by
  induction seq generalizing t with
  | nil => simp [registerSeq]
  | cons e rest ih =>
      obtain ⟨ref, f⟩ := e
      cases hk : f.kind <;>
        simp [registerSeq, hk, ih, FuncKind.isSupported]

lemma registerSeq_message_lookup (seq : List (PluginRef × FunctionData))
    (t : Tables) (h : (registerSeq t seq).2 = none) (p : String) :
    lookupTable (registerSeq t seq).1.message_listeners p
      = lookupTable t.message_listeners p
        ++ ((seq.filter fun e => e.2.kind.isMessage && e.2.matcher == p).map setOwner) := by
  induction seq generalizing t with
  | nil => simp [registerSeq]
  | cons e rest ih =>
      obtain ⟨ref, f⟩ := e
      cases hk : f.kind with
      | message =>
          simp only [registerSeq, hk] at h ⊢
          rw [ih _ h]
          by_cases hp : f.matcher = p
          · subst hp
            rw [List.filter_cons_of_pos (by simp [hk, FuncKind.isMessage])]
            simp [lookup_appendListener_same]
          · rw [List.filter_cons_of_neg (by simp [hk, FuncKind.isMessage, hp])]
            simp [lookup_appendListener_other _ _ _ _ (Ne.symm hp)]
      | webhook =>
          simp only [registerSeq, hk] at h ⊢
          rw [ih _ h]
          rw [List.filter_cons_of_neg (by simp [hk, FuncKind.isMessage])]
      | other ty => simp [registerSeq, hk] at h

lemma registerSeq_webhook_lookup (seq : List (PluginRef × FunctionData))
    (t : Tables) (h : (registerSeq t seq).2 = none) (p : String) :
    lookupTable (registerSeq t seq).1.webhook_listeners p
      = lookupTable t.webhook_listeners p
        ++ ((seq.filter fun e => e.2.kind.isWebhook && e.2.matcher == p).map setOwner) := by
  induction seq generalizing t with
  | nil => simp [registerSeq]
  | cons e rest ih =>
      obtain ⟨ref, f⟩ := e
      cases hk : f.kind with
      | webhook =>
          simp only [registerSeq, hk] at h ⊢
          rw [ih _ h]
          by_cases hp : f.matcher = p
          · subst hp
            rw [List.filter_cons_of_pos (by simp [hk, FuncKind.isWebhook])]
            simp [lookup_appendListener_same]
          · rw [List.filter_cons_of_neg (by simp [hk, FuncKind.isWebhook, hp])]
            simp [lookup_appendListener_other _ _ _ _ (Ne.symm hp)]
      | message =>
          simp only [registerSeq, hk] at h ⊢
          rw [ih _ h]
          rw [List.filter_cons_of_neg (by simp [hk, FuncKind.isWebhook])]
      | other ty => simp [registerSeq, hk] at h

lemma registerSeq_message_flatten (seq : List (PluginRef × FunctionData))
    (t : Tables) (h : (registerSeq t seq).2 = none) :
    (tableFlatten (registerSeq t seq).1.message_listeners).Perm
      (tableFlatten t.message_listeners
        ++ ((seq.filter fun e => e.2.kind.isMessage).map setOwner)) := by
  induction seq generalizing t with
  | nil => simp [registerSeq]
  | cons e rest ih =>
      obtain ⟨ref, f⟩ := e
      cases hk : f.kind with
      | message =>
          simp only [registerSeq, hk] at h ⊢
          rw [List.filter_cons_of_pos (by simp [hk, FuncKind.isMessage])]
          refine (ih _ h).trans ?_
          simp only [List.map_cons]
          refine (List.Perm.append_right _ (tableFlatten_appendListener _ _ _)).trans ?_
          exact (List.perm_middle).symm
      | webhook =>
          simp only [registerSeq, hk] at h ⊢
          rw [List.filter_cons_of_neg (by simp [hk, FuncKind.isMessage])]
          exact ih _ h
      | other ty => simp [registerSeq, hk] at h

lemma registerSeq_webhook_flatten (seq : List (PluginRef × FunctionData))
    (t : Tables) (h : (registerSeq t seq).2 = none) :
    (tableFlatten (registerSeq t seq).1.webhook_listeners).Perm
      (tableFlatten t.webhook_listeners
        ++ ((seq.filter fun e => e.2.kind.isWebhook).map setOwner)) := by
  induction seq generalizing t with
  | nil => simp [registerSeq]
  | cons e rest ih =>
      obtain ⟨ref, f⟩ := e
      cases hk : f.kind with
      | webhook =>
          simp only [registerSeq, hk] at h ⊢
          rw [List.filter_cons_of_pos (by simp [hk, FuncKind.isWebhook])]
          refine (ih _ h).trans ?_
          simp only [List.map_cons]
          refine (List.Perm.append_right _ (tableFlatten_appendListener _ _ _)).trans ?_
          exact (List.perm_middle).symm
      | message =>
          simp only [registerSeq, hk] at h ⊢
          rw [List.filter_cons_of_neg (by simp [hk, FuncKind.isWebhook])]
          exact ih _ h
      | other ty => simp [registerSeq, hk] at h

lemma registerSeq_error_decomp (t : Tables) (pre : List (PluginRef × FunctionData))
    (ref : PluginRef) (f : FunctionData) (post : List (PluginRef × FunctionData))
    (ty : String) (hpre : ∀ e ∈ pre, e.2.kind.isSupported = true)
    (hf : f.kind = .other ty) :
    registerSeq t (pre ++ (ref, f) :: post)
      = ((registerSeq t pre).1, some (typeErrMsg ref.className ty)) := by
  have h2 : (registerSeq t pre).2 = none := (registerSeq_none_iff t pre).mpr hpre
  rw [registerSeq_append]
  rcases hr : registerSeq t pre with ⟨t1, e⟩
  rw [hr] at h2
  simp only at h2
  subst h2
  simp [registerSeq, hf]

lemma filter_partition_length (seq : List (PluginRef × FunctionData))
    (hs : ∀ e ∈ seq, e.2.kind.isSupported = true) :
    (seq.filter fun e => e.2.kind.isMessage).length
      + (seq.filter fun e => e.2.kind.isWebhook).length = seq.length := by
  induction seq with
  | nil => simp
  | cons e rest ih =>
      have he := hs e (by simp)
      have ht : ∀ x ∈ rest, x.2.kind.isSupported = true := fun x hx => hs x (by simp [hx])
      have ih2 := ih ht
      cases hk : e.2.kind with
      | message =>
          rw [List.filter_cons_of_pos (by simp [hk, FuncKind.isMessage]),
            List.filter_cons_of_neg (by simp [hk, FuncKind.isWebhook])]
          simp only [List.length_cons, List.length_cons]
          omega
      | webhook =>
          rw [List.filter_cons_of_neg (by simp [hk, FuncKind.isMessage]),
            List.filter_cons_of_pos (by simp [hk, FuncKind.isWebhook])]
          simp only [List.length_cons, List.length_cons]
          omega
      | other ty => rw [hk] at he; simp [FuncKind.isSupported] at he

lemma charLtB_iff (a b : Char) : charLtB a b = true ↔ a.val.toNat < b.val.toNat := by
  simp [charLtB]

lemma charLtB_irrefl (a : Char) : charLtB a a = false := by
  simp [charLtB]

lemma char_eq_of_not_ltB (a b : Char) (h1 : charLtB a b = false)
    (h2 : charLtB b a = false) : a = b := by
  simp only [charLtB, decide_eq_false_iff_not, Nat.not_lt] at h1 h2
  exact Char.ext (UInt32.ext (Nat.le_antisymm h2 h1))

lemma lexLtB_irrefl : ∀ a : List Char, lexLtB a a = false
  | [] => rfl
  | c :: cs => by simp [lexLtB, charLtB_irrefl, lexLtB_irrefl cs]

lemma lexLtB_trans : ∀ a b c : List Char,
    lexLtB a b = true → lexLtB b c = true → lexLtB a c = true
  | [], [], _, h1, _ => by simp [lexLtB] at h1
  | _ :: _, [], _, h1, _ => by simp [lexLtB] at h1
  | [], _ :: _, [], _, h2 => by simp [lexLtB] at h2
  | [], _ :: _, _ :: _, _, _ => rfl
  | _ :: _, _ :: _, [], _, h2 => by simp [lexLtB] at h2
  | x :: xs, y :: ys, z :: zs, h1, h2 => by
      simp only [lexLtB, Bool.or_eq_true, Bool.and_eq_true, beq_iff_eq] at h1 h2 ⊢
      rcases h1 with h1 | ⟨hxy, h1⟩
      · rcases h2 with h2 | ⟨hyz, h2⟩
        · exact Or.inl (by rw [charLtB_iff] at h1 h2 ⊢; omega)
        · exact Or.inl (hyz ▸ h1)
      · rcases h2 with h2 | ⟨hyz, h2⟩
        · exact Or.inl (hxy ▸ h2)
        · exact Or.inr ⟨hxy.trans hyz, lexLtB_trans xs ys zs h1 h2⟩

lemma lexLtB_asymm : ∀ a b : List Char, lexLtB a b = true → lexLtB b a = false
  | [], [], h => by simp [lexLtB] at h
  | [], _ :: _, _ => rfl
  | _ :: _, [], h => by simp [lexLtB] at h
  | x :: xs, y :: ys, h => by
      simp only [lexLtB, Bool.or_eq_true, Bool.and_eq_true, beq_iff_eq] at h
      simp only [lexLtB, Bool.or_eq_false_iff, Bool.and_eq_false_iff]
      rcases h with h | ⟨hxy, h⟩
      · rw [charLtB_iff] at h
        constructor
        · simp only [charLtB, decide_eq_false_iff_not, Nat.not_lt]
          omega
        · left
          simp only [beq_eq_false_iff_ne, ne_eq]
          intro hyx
          subst hyx
          omega
      · subst hxy
        exact ⟨charLtB_irrefl x, Or.inr (lexLtB_asymm xs ys h)⟩

lemma lexLtB_eq_of_not : ∀ a b : List Char,
    lexLtB a b = false → lexLtB b a = false → a = b
  | [], [], _, _ => rfl
  | [], _ :: _, h1, _ => by simp [lexLtB] at h1
  | _ :: _, [], _, h2 => by simp [lexLtB] at h2
  | x :: xs, y :: ys, h1, h2 => by
      simp only [lexLtB, Bool.or_eq_false_iff, Bool.and_eq_false_iff] at h1 h2
      obtain ⟨hc1, hr1⟩ := h1
      obtain ⟨hc2, hr2⟩ := h2
      have hxy : x = y := char_eq_of_not_ltB x y hc1 hc2
      subst hxy
      have hxs : lexLtB xs ys = false := by
        rcases hr1 with hr1 | hr1
        · simp at hr1
        · exact hr1
      have hys : lexLtB ys xs = false := by
        rcases hr2 with hr2 | hr2
        · simp at hr2
        · exact hr2
      rw [lexLtB_eq_of_not xs ys hxs hys]

lemma strLtB_irrefl (a : String) : strLtB a a = false := lexLtB_irrefl a.data

lemma strLtB_trans (a b c : String) (h1 : strLtB a b = true)
    (h2 : strLtB b c = true) : strLtB a c = true :=
  lexLtB_trans a.data b.data c.data h1 h2

lemma strLtB_asymm (a b : String) (h : strLtB a b = true) : strLtB b a = false :=
  lexLtB_asymm a.data b.data h

lemma str_eq_of_not_ltB (a b : String) (h1 : strLtB a b = false)
    (h2 : strLtB b a = false) : a = b :=
  String.ext (lexLtB_eq_of_not a.data b.data h1 h2)

lemma strLeB_of_ltB (a b : String) (h : strLtB a b = true) : strLeB a b = true := by
  simp [strLeB, strLtB_asymm a b h]

lemma strLeB_refl (a : String) : strLeB a a = true := by
  simp [strLeB, strLtB_irrefl]

lemma strLeB_total (a b : String) : strLeB a b = true ∨ strLeB b a = true := by
  by_cases h : strLtB b a = true
  · right
    simp [strLeB, strLtB_asymm b a h]
  · left
    simp only [strLeB, Bool.not_eq_true] at h ⊢
    simp [h]

lemma strLeB_trans (a b c : String) (h1 : strLeB a b = true)
    (h2 : strLeB b c = true) : strLeB a c = true := by
  simp only [strLeB, Bool.not_eq_true'] at h1 h2 ⊢
  cases hca : strLtB c a with
  | false => rfl
  | true =>
      cases hbc : strLtB b c with
      | true => exact absurd (strLtB_trans b c a hbc hca) (by simp [h1])
      | false =>
          have hb : b = c := str_eq_of_not_ltB b c hbc h2
          rw [hb] at h1
          exact absurd hca (by simp [h1])

lemma strLeB_antisymm (a b : String) (h1 : strLeB a b = true)
    (h2 : strLeB b a = true) : a = b := by
  simp only [strLeB, Bool.not_eq_true'] at h1 h2
  exact str_eq_of_not_ltB a b h2 h1

lemma keyLE_iff (a b : String × String × String) :
    keyLE a b = true ↔
      strLtB a.1 b.1 = true
        ∨ (a.1 = b.1 ∧ (strLtB a.2.1 b.2.1 = true
            ∨ (a.2.1 = b.2.1 ∧ strLeB a.2.2 b.2.2 = true))) := by
  simp [keyLE, Bool.or_eq_true, Bool.and_eq_true, beq_iff_eq]

lemma keyLE_total (a b : String × String × String) :
    keyLE a b = true ∨ keyLE b a = true := by
  rw [keyLE_iff, keyLE_iff]
  cases h1 : strLtB a.1 b.1 with
  | true => exact Or.inl (Or.inl rfl)
  | false =>
      cases h1' : strLtB b.1 a.1 with
      | true => exact Or.inr (Or.inl rfl)
      | false =>
          have e1 : a.1 = b.1 := str_eq_of_not_ltB _ _ h1 h1'
          cases h2 : strLtB a.2.1 b.2.1 with
          | true => exact Or.inl (Or.inr ⟨e1, Or.inl rfl⟩)
          | false =>
              cases h2' : strLtB b.2.1 a.2.1 with
              | true => exact Or.inr (Or.inr ⟨e1.symm, Or.inl rfl⟩)
              | false =>
                  have e2 : a.2.1 = b.2.1 := str_eq_of_not_ltB _ _ h2 h2'
                  rcases strLeB_total a.2.2 b.2.2 with h3 | h3
                  · exact Or.inl (Or.inr ⟨e1, Or.inr ⟨e2, h3⟩⟩)
                  · exact Or.inr (Or.inr ⟨e1.symm, Or.inr ⟨e2.symm, h3⟩⟩)

lemma keyLE_trans (a b c : String × String × String) (h1 : keyLE a b = true)
    (h2 : keyLE b c = true) : keyLE a c = true := by
  rw [keyLE_iff] at h1 h2 ⊢
  rcases h1 with h1 | ⟨e1, h1⟩
  · rcases h2 with h2 | ⟨e2, _⟩
    · exact Or.inl (strLtB_trans _ _ _ h1 h2)
    · exact Or.inl (e2 ▸ h1)
  · rcases h2 with h2 | ⟨e2, h2⟩
    · exact Or.inl (e1 ▸ h2)
    · refine Or.inr ⟨e1.trans e2, ?_⟩
      rcases h1 with h1 | ⟨f1, h1⟩
      · rcases h2 with h2 | ⟨f2, _⟩
        · exact Or.inl (strLtB_trans _ _ _ h1 h2)
        · exact Or.inl (f2 ▸ h1)
      · rcases h2 with h2 | ⟨f2, h2⟩
        · exact Or.inl (f1 ▸ h2)
        · exact Or.inr ⟨f1.trans f2, strLeB_trans _ _ _ h1 h2⟩

lemma keyLE_antisymm (a b : String × String × String) (h1 : keyLE a b = true)
    (h2 : keyLE b a = true) : a = b := by
  obtain ⟨a1, a2, a3⟩ := a
  obtain ⟨b1, b2, b3⟩ := b
  rw [keyLE_iff] at h1 h2
  simp only at h1 h2
  rcases h1 with h1 | ⟨e1, h1⟩
  · rcases h2 with h2 | ⟨e2, _⟩
    · exact absurd h2 (by simp [strLtB_asymm _ _ h1])
    · exact absurd h1 (by simp [e2, strLtB_irrefl])
  · rcases h2 with h2 | ⟨e2, h2⟩
    · exact absurd h2 (by simp [e1, strLtB_irrefl])
    · subst e1
      rcases h1 with h1 | ⟨f1, h1⟩
      · rcases h2 with h2 | ⟨f2, _⟩
        · exact absurd h2 (by simp [strLtB_asymm _ _ h1])
        · exact absurd h1 (by simp [f2, strLtB_irrefl])
      · rcases h2 with h2 | ⟨f2, h2⟩
        · exact absurd h2 (by simp [f1, strLtB_irrefl])
        · subst f1
          rw [strLeB_antisymm _ _ h1 h2]

lemma eq_of_perm_of_sorted_of_nodupKeys {α : Type} [DecidableEq α]
    (key : α → String × String × String) :
    ∀ (l1 l2 : List α), l1.Perm l2
      → l1.Pairwise (fun x y => keyLE (key x) (key y) = true)
      → l2.Pairwise (fun x y => keyLE (key x) (key y) = true)
      → (l1.map key).Nodup → l1 = l2
  | [], l2, h, _, _, _ => (h.symm.eq_nil).symm
  | a :: t1, [], h, _, _, _ => absurd h.eq_nil (by simp)
  | a :: t1, b :: t2, h, s1, s2, nd => by
      obtain ⟨ra, s1t⟩ := List.pairwise_cons.mp s1
      obtain ⟨rb, s2t⟩ := List.pairwise_cons.mp s2
      rw [List.map_cons] at nd
      obtain ⟨nda, ndt⟩ := List.nodup_cons.mp nd
      by_cases hab : a = b
      · subst hab
        have ht := h.cons_inv
        rw [eq_of_perm_of_sorted_of_nodupKeys key t1 t2 ht s1t s2t ndt]
      · exfalso
        have hb1 : b ∈ a :: t1 := h.symm.subset (by simp)
        have hbt : b ∈ t1 := by
          rcases List.mem_cons.mp hb1 with hbeq | hbt2
          · exact absurd hbeq.symm hab
          · exact hbt2
        have ha2 : a ∈ b :: t2 := h.subset (by simp)
        have hat : a ∈ t2 := by
          rcases List.mem_cons.mp ha2 with haeq | hat2
          · exact absurd haeq hab
          · exact hat2
        have k1 : keyLE (key a) (key b) = true := ra b hbt
        have k2 : keyLE (key b) (key a) = true := rb a hat
        have hk : key a = key b := keyLE_antisymm _ _ k1 k2
        exact nda (by rw [hk]; exact List.mem_map_of_mem key hbt)

lemma genFns_ok (p : String) (fns : List FunctionData)
    (hw : ∀ f ∈ fns, f.matcher = p ∧ f.kind.isSupported = true) :
    genFns p fns = .ok (fns.map fun f => mkRecord f.matcher f) := by
  induction fns with
  | nil => rfl
  | cons f rest ih =>
      obtain ⟨hm, hs⟩ := hw f (by simp)
      have ih2 := ih (fun x hx => hw x (by simp [hx]))
      cases hk : f.kind with
      | message => simp [genFns, genOne, hk, ih2, hm]
      | webhook => simp [genFns, genOne, hk, ih2, hm]
      | other ty => rw [hk] at hs; simp [FuncKind.isSupported] at hs

lemma generate_plugin_help_ok (t : Table)
    (hw : ∀ e ∈ t, ∀ f ∈ e.2, f.matcher = e.1 ∧ f.kind.isSupported = true) :
    generate_plugin_help t
      = .ok ((tableFlatten t).map (fun f => mkRecord f.matcher f)) := by
  induction t with
  | nil => rfl
  | cons e rest ih =>
      obtain ⟨p, fns⟩ := e
      have h1 : genFns p fns = .ok (fns.map fun f => mkRecord f.matcher f) :=
        genFns_ok p fns (fun f hf => hw (p, fns) (by simp) f hf)
      have h2 := ih (fun x hx f hf => hw x (by simp [hx]) f hf)
      simp [generate_plugin_help, h1, h2, tableFlatten]

lemma appendListener_inv (P : String → FunctionData → Prop) (t : Table)
    (p : String) (f : FunctionData)
    (ht : ∀ e ∈ t, ∀ g ∈ e.2, P e.1 g) (hf : P p f) :
    ∀ e ∈ appendListener t p f, ∀ g ∈ e.2, P e.1 g := by
  induction t with
  | nil =>
      intro e he g hg
      simp only [appendListener, List.mem_singleton] at he
      subst he
      simp only [List.mem_singleton] at hg
      subst hg
      exact hf
  | cons hd rest ih =>
      obtain ⟨q, b⟩ := hd
      by_cases hq : q = p
      · intro e he g hg
        simp only [appendListener, if_pos hq] at he
        rcases List.mem_cons.mp he with he | he
        · subst he
          rcases List.mem_append.mp hg with hg | hg
          · exact ht (q, b) (by simp) g hg
          · simp only [List.mem_singleton] at hg
            subst hg
            exact hq ▸ hf
        · exact ht e (by simp [he]) g hg
      · intro e he g hg
        simp only [appendListener, if_neg hq] at he
        rcases List.mem_cons.mp he with he | he
        · subst he
          exact ht (q, b) (by simp) g hg
        · exact ih (fun x hx g2 hg2 => ht x (by simp [hx]) g2 hg2) e he g hg

lemma registerSeq_message_inv (seq : List (PluginRef × FunctionData)) (t : Tables)
    (ht : ∀ e ∈ t.message_listeners, ∀ g ∈ e.2,
      g.matcher = e.1 ∧ g.kind = FuncKind.message) :
    ∀ e ∈ (registerSeq t seq).1.message_listeners, ∀ g ∈ e.2,
      g.matcher = e.1 ∧ g.kind = FuncKind.message := by
  induction seq generalizing t with
  | nil => exact ht
  | cons x rest ih =>
      obtain ⟨ref, f⟩ := x
      cases hk : f.kind with
      | message =>
          simp only [registerSeq, hk]
          exact ih _ (appendListener_inv
            (fun a g => g.matcher = a ∧ g.kind = FuncKind.message) _ _ _ ht ⟨rfl, hk⟩)
      | webhook =>
          simp only [registerSeq, hk]
          exact ih _ ht
      | other ty =>
          simp only [registerSeq, hk]
          exact ht

lemma registerSeq_webhook_inv (seq : List (PluginRef × FunctionData)) (t : Tables)
    (ht : ∀ e ∈ t.webhook_listeners, ∀ g ∈ e.2,
      g.matcher = e.1 ∧ g.kind = FuncKind.webhook) :
    ∀ e ∈ (registerSeq t seq).1.webhook_listeners, ∀ g ∈ e.2,
      g.matcher = e.1 ∧ g.kind = FuncKind.webhook := by
  induction seq generalizing t with
  | nil => exact ht
  | cons x rest ih =>
      obtain ⟨ref, f⟩ := x
      cases hk : f.kind with
      | webhook =>
          simp only [registerSeq, hk]
          exact ih _ (appendListener_inv
            (fun a g => g.matcher = a ∧ g.kind = FuncKind.webhook) _ _ _ ht ⟨rfl, hk⟩)
      | message =>
          simp only [registerSeq, hk]
          exact ih _ ht
      | other ty =>
          simp only [registerSeq, hk]
          exact ht

lemma get_help_ok (m : Manager)
    (hm : ∀ e ∈ m.message_listeners, ∀ g ∈ e.2,
      g.matcher = e.1 ∧ g.kind = FuncKind.message)
    (hw : ∀ e ∈ m.webhook_listeners, ∀ g ∈ e.2,
      g.matcher = e.1 ∧ g.kind = FuncKind.webhook) :
    PluginManager.get_help m = .ok (helpRecords m) := by
  have h1 := generate_plugin_help_ok m.message_listeners
    (fun e he g hg => ⟨(hm e he g hg).1, by rw [(hm e he g hg).2]; rfl⟩)
  have h2 := generate_plugin_help_ok m.webhook_listeners
    (fun e he g hg => ⟨(hw e he g hg).1, by rw [(hw e he g hg).2]; rfl⟩)
  simp [PluginManager.get_help, h1, h2, helpRecords]

lemma get_help_string_ok (m : Manager)
    (hm : ∀ e ∈ m.message_listeners, ∀ g ∈ e.2,
      g.matcher = e.1 ∧ g.kind = FuncKind.message)
    (hw : ∀ e ∈ m.webhook_listeners, ∀ g ∈ e.2,
      g.matcher = e.1 ∧ g.kind = FuncKind.webhook) :
    HelpPlugin.get_help_string m
      = .ok (helpPreamble ++ helpBody none (sortStable recLE (helpRecords m))) := by
  rw [HelpPlugin.get_help_string, get_help_ok m hm hw]

lemma helpBody_eq_aux : ∀ (prev : Option String) (recs : List FunctionInfo),
    helpBody prev recs
      = ((recs.zip (prev :: recs.map (fun h => metaGet h.metadata "category"))).map
          (fun hp => specHeaderAt hp.1 hp.2 ++ renderLine hp.1)).foldr
          (fun piece acc => piece ++ acc) ""
  | prev, [] => rfl
  | prev, h :: rest => by
      have ih := helpBody_eq_aux (metaGet h.metadata "category") rest
      simp only [List.map_cons, List.zip_cons_cons, List.foldr_cons]
      rw [← ih]
      by_cases hc : metaGet h.metadata "category" = prev
      · subst hc
        simp [helpBody, specHeaderAt, String.empty_append, String.append_assoc]
      · simp [helpBody, specHeaderAt, hc, String.append_assoc]

lemma specBody_eq_helpBody (recs : List FunctionInfo) :
    specBody recs = helpBody none recs :=
  (helpBody_eq_aux none recs).symm

lemma recLE_trans (a b c : FunctionInfo) (h1 : recLE a b = true)
    (h2 : recLE b c = true) : recLE a c = true :=
  keyLE_trans _ _ _ h1 h2

lemma recLE_total (a b : FunctionInfo) : (recLE a b || recLE b a) = true := by
  rcases keyLE_total (custom_sort a) (custom_sort b) with h | h <;> simp [recLE, h]

lemma insertLe_perm {α : Type} (le : α → α → Bool) (a : α) :
    ∀ l : List α, (insertLe le a l).Perm (a :: l)
  | [] => List.Perm.refl _
  | b :: l => by
      unfold insertLe
      by_cases h : le a b = true
      · simp [h]
      · simp only [h, if_false, Bool.false_eq_true]
        exact (List.Perm.cons b (insertLe_perm le a l)).trans (List.Perm.swap a b l)

lemma sortStable_perm {α : Type} (le : α → α → Bool) :
    ∀ l : List α, (sortStable le l).Perm l
  | [] => List.Perm.refl _
  | a :: l => (insertLe_perm le a _).trans (List.Perm.cons a (sortStable_perm le l))

lemma insertLe_pairwise {α : Type} (le : α → α → Bool)
    (htrans : ∀ a b c, le a b = true → le b c = true → le a c = true)
    (htotal : ∀ a b, (le a b || le b a) = true) (a : α) :
    ∀ l : List α, l.Pairwise (fun x y => le x y = true)
      → (insertLe le a l).Pairwise (fun x y => le x y = true)
  | [], _ => by simp [insertLe]
  | b :: l, hp => by
      obtain ⟨hb, hl⟩ := List.pairwise_cons.mp hp
      unfold insertLe
      by_cases h : le a b = true
      · simp only [h, if_true]
        refine List.pairwise_cons.mpr ⟨?_, hp⟩
        intro x hx
        rcases List.mem_cons.mp hx with rfl | hx
        · exact h
        · exact htrans a b x h (hb x hx)
      · simp only [h, if_false, Bool.false_eq_true]
        refine List.pairwise_cons.mpr ⟨?_, insertLe_pairwise le htrans htotal a l hl⟩
        intro x hx
        have hx2 : x ∈ a :: l := (insertLe_perm le a l).subset hx
        rcases List.mem_cons.mp hx2 with hxa | hx2
        · rw [hxa]
          have hor := htotal a b
          rw [Bool.or_eq_true] at hor
          rcases hor with hor | hor
          · exact absurd hor h
          · exact hor
        · exact hb x hx2

lemma sortStable_pairwise {α : Type} (le : α → α → Bool)
    (htrans : ∀ a b c, le a b = true → le b c = true → le a c = true)
    (htotal : ∀ a b, (le a b || le b a) = true) :
    ∀ l : List α, (sortStable le l).Pairwise (fun x y => le x y = true)
  | [] => List.Pairwise.nil
  | a :: l => insertLe_pairwise le htrans htotal a _ (sortStable_pairwise le htrans htotal l)

lemma sortStable_recLE_sorted (l : List FunctionInfo) :
    (sortStable recLE l).Pairwise (fun a b => recLE a b = true) :=
  sortStable_pairwise recLE (fun a b c => recLE_trans a b c) (fun a b => recLE_total a b) l

lemma specLE_of_recLE (a b : FunctionInfo)
    (ha : a.help_type = "message" ∨ a.help_type = "webhook")
    (hb : b.help_type = "message" ∨ b.help_type = "webhook")
    (h : recLE a b = true) : specLE a b := by
  rw [recLE, keyLE_iff] at h
  simp only [custom_sort] at h
  unfold specLE specKeyLE specKey
  simp only
  rcases h with h | ⟨e1, h⟩
  · exact Or.inl h
  · refine Or.inr ⟨e1, ?_⟩
    rcases h with h | ⟨e2, h⟩
    · rcases ha with ha | ha <;> rcases hb with hb | hb <;> rw [ha, hb] at h ⊢
      · exact absurd h (by decide)
      · exact Or.inl (by decide)
      · exact absurd h (by decide)
      · exact absurd h (by decide)
    · exact Or.inr ⟨by rw [e2], h⟩

lemma helpRecords_help_type (m : Manager)
    (hm : ∀ e ∈ m.message_listeners, ∀ g ∈ e.2,
      g.matcher = e.1 ∧ g.kind = FuncKind.message)
    (hw : ∀ e ∈ m.webhook_listeners, ∀ g ∈ e.2,
      g.matcher = e.1 ∧ g.kind = FuncKind.webhook) :
    ∀ r ∈ helpRecords m, r.help_type = "message" ∨ r.help_type = "webhook" := by
  intro r hr
  unfold helpRecords at hr
  rcases List.mem_append.mp hr with hr | hr
  · obtain ⟨f, hf, rfl⟩ := List.mem_map.mp hr
    unfold tableFlatten at hf
    obtain ⟨e, he, hfe⟩ := List.mem_flatMap.mp hf
    have hk := (hm e he f hfe).2
    left
    simp [mkRecord, hk]
  · obtain ⟨f, hf, rfl⟩ := List.mem_map.mp hr
    unfold tableFlatten at hf
    obtain ⟨e, he, hfe⟩ := List.mem_flatMap.mp hf
    have hk := (hw e he f hfe).2
    right
    simp [mkRecord, hk]

lemma init_construct_err (ps : List PluginData) (d : Nat) (s : Settings) :
    (PluginManager.init_manager (PluginManager.construct ps) d s).2
      = (registerSeq ⟨[], []⟩ (discoverySeq s ps)).2 := by
  rw [init_manager_eq_registerSeq]
  rfl

lemma init_construct_msg (ps : List PluginData) (d : Nat) (s : Settings) :
    (PluginManager.init_manager (PluginManager.construct ps) d s).1.message_listeners
      = (registerSeq ⟨[], []⟩ (discoverySeq s ps)).1.message_listeners := by
  rw [init_manager_eq_registerSeq]
  rfl

lemma init_construct_wh (ps : List PluginData) (d : Nat) (s : Settings) :
    (PluginManager.init_manager (PluginManager.construct ps) d s).1.webhook_listeners
      = (registerSeq ⟨[], []⟩ (discoverySeq s ps)).1.webhook_listeners := by
  rw [init_manager_eq_registerSeq]
  rfl

lemma discoverySeq_perm (s : Settings) (ps1 ps2 : List PluginData)
    (h : ps1.Perm ps2) : (discoverySeq s ps1).Perm (discoverySeq s ps2) :=
  List.Perm.flatMap_right _ h

lemma mem_discoverySeq (s : Settings) (ps : List PluginData) (P : PluginData)
    (hP : P ∈ ps) (a : Attr) (ha : a ∈ P.postAttrs s) (f : FunctionData)
    (hf : f ∈ a.members) : (P.ref, f) ∈ discoverySeq s ps := by
  unfold discoverySeq
  exact List.mem_flatMap.mpr
    ⟨P, hP, List.mem_flatMap.mpr ⟨a, ha, List.mem_map_of_mem _ hf⟩⟩

lemma stackSibs_spec (c : Nat) (doc : Option String) (isCoro : Bool) :
    ∀ (i : Nat) (rs : List RegSpec) (f : FunctionData),
      f ∈ stackSibs c doc isCoro i rs →
      f.callable = c ∧ ∃ r ∈ rs, f.kind = r.rkind ∧ f.matcher = r.pattern
  | i, [], f, hf => by simp [stackSibs] at hf
  | i, r :: rs, f, hf => by
      simp only [stackSibs, List.mem_cons] at hf
      rcases hf with rfl | hf
      · exact ⟨rfl, r, by simp [regDescriptor]⟩
      · obtain ⟨h1, r2, h2, h3⟩ := stackSibs_spec c doc isCoro (i + 1) rs f hf
        exact ⟨h1, r2, by simp [h2], h3⟩

lemma stackSibs_length (c : Nat) (doc : Option String) (isCoro : Bool) :
    ∀ (i : Nat) (rs : List RegSpec), (stackSibs c doc isCoro i rs).length = rs.length
  | _, [] => rfl
  | i, r :: rs => by
      simp [stackSibs, stackSibs_length c doc isCoro (i + 1) rs]

lemma stackRegs_members_callable (name : String) (base c : Nat)
    (doc : Option String) (isCoro : Bool) (first : RegSpec) (rest : List RegSpec) :
    ∀ f ∈ (stackRegs name base c doc isCoro first rest).members, f.callable = c := by
  intro f hf
  simp only [stackRegs, Attr.members, List.mem_cons] at hf
  rcases hf with rfl | hf
  · rfl
  · exact (stackSibs_spec c doc isCoro (base + 1) rest f hf).1

lemma stackRegs_members_length (name : String) (base c : Nat)
    (doc : Option String) (isCoro : Bool) (first : RegSpec) (rest : List RegSpec) :
    (stackRegs name base c doc isCoro first rest).members.length = 1 + rest.length := by
  simp [stackRegs, Attr.members, stackSibs_length, Nat.add_comm]

lemma finalOwner_eq_of_unique (seq : List (PluginRef × FunctionData))
    (ref : PluginRef) (f : FunctionData) (hmem : (ref, f) ∈ seq)
    (huniq : ∀ e1 ∈ seq, ∀ e2 ∈ seq, e1.2.fid = e2.2.fid → e1.1 = e2.1) :
    finalOwner seq f.fid = some ref := by
  unfold finalOwner
  have hmemf : (ref, f) ∈ seq.filter (fun e => e.2.fid == f.fid) :=
    List.mem_filter.mpr ⟨hmem, by simp⟩
  cases hl : (seq.filter (fun e => e.2.fid == f.fid)).getLast? with
  | none =>
      rw [List.getLast?_eq_none_iff] at hl
      rw [hl] at hmemf
      simp at hmemf
  | some e =>
      have he : e ∈ seq.filter (fun e => e.2.fid == f.fid) :=
        List.mem_of_mem_getLast? (Option.mem_def.mpr hl)
      obtain ⟨hes, hef⟩ := List.mem_filter.mp he
      have hfid : e.2.fid = f.fid := by simpa using hef
      have he1 : e.1 = ref := huniq e hes (ref, f) hmem hfid
      simp [he1]

lemma isMessage_eq (k : FuncKind) (h : k.isMessage = true) : k = FuncKind.message := by
  cases k <;> simp [FuncKind.isMessage] at h ⊢

lemma isWebhook_eq (k : FuncKind) (h : k.isWebhook = true) : k = FuncKind.webhook := by
  cases k <;> simp [FuncKind.isWebhook] at h ⊢

lemma mem_message_bucket_inv (seq : List (PluginRef × FunctionData)) (p : String)
    (g : FunctionData)
    (hg : g ∈ (seq.filter fun e => e.2.kind.isMessage && e.2.matcher == p).map setOwner) :
    g.matcher = p ∧ g.kind = FuncKind.message := by
  obtain ⟨e, he, rfl⟩ := List.mem_map.mp hg
  obtain ⟨_, hp⟩ := List.mem_filter.mp he
  simp only [Bool.and_eq_true, beq_iff_eq] at hp
  exact ⟨hp.2, isMessage_eq _ hp.1⟩

lemma mem_webhook_bucket_inv (seq : List (PluginRef × FunctionData)) (p : String)
    (g : FunctionData)
    (hg : g ∈ (seq.filter fun e => e.2.kind.isWebhook && e.2.matcher == p).map setOwner) :
    g.matcher = p ∧ g.kind = FuncKind.webhook := by
  obtain ⟨e, he, rfl⟩ := List.mem_map.mp hg
  obtain ⟨_, hp⟩ := List.mem_filter.mp he
  simp only [Bool.and_eq_true, beq_iff_eq] at hp
  exact ⟨hp.2, isWebhook_eq _ hp.1⟩

lemma init_success_of_perm (ps1 ps2 : List PluginData) (d : Nat) (s : Settings)
    (hp : ps1.Perm ps2)
    (h1 : (PluginManager.init_manager (PluginManager.construct ps1) d s).2 = none) :
    (PluginManager.init_manager (PluginManager.construct ps2) d s).2 = none := by
  rw [init_construct_err] at h1 ⊢
  rw [registerSeq_none_iff] at h1 ⊢
  intro e he
  exact h1 e ((discoverySeq_perm s ps1 ps2 hp).symm.subset he)

lemma helpRecords_init_perm (ps : List PluginData) (d : Nat) (s : Settings)
    (h : (PluginManager.init_manager (PluginManager.construct ps) d s).2 = none) :
    (helpRecords (PluginManager.init_manager (PluginManager.construct ps) d s).1).Perm
      ((((discoverySeq s ps).filter fun e => e.2.kind.isMessage).map setOwner).map
          (fun f => mkRecord f.matcher f)
        ++ (((discoverySeq s ps).filter fun e => e.2.kind.isWebhook).map setOwner).map
          (fun f => mkRecord f.matcher f)) := by
  unfold helpRecords
  rw [init_construct_msg, init_construct_wh]
  rw [init_construct_err] at h
  refine List.Perm.append ?_ ?_
  · refine List.Perm.map _ ?_
    have hfl := registerSeq_message_flatten _ _ h
    simpa [tableFlatten] using hfl
  · refine List.Perm.map _ ?_
    have hfl := registerSeq_webhook_flatten _ _ h
    simpa [tableFlatten] using hfl

lemma helpRecords_perm_of_plugin_perm (ps1 ps2 : List PluginData) (d : Nat)
    (s : Settings) (hp : ps1.Perm ps2)
    (h1 : (PluginManager.init_manager (PluginManager.construct ps1) d s).2 = none)
    (h2 : (PluginManager.init_manager (PluginManager.construct ps2) d s).2 = none) :
    (helpRecords (PluginManager.init_manager (PluginManager.construct ps1) d s).1).Perm
      (helpRecords (PluginManager.init_manager (PluginManager.construct ps2) d s).1) := by
  refine (helpRecords_init_perm ps1 d s h1).trans
    (List.Perm.trans ?_ (helpRecords_init_perm ps2 d s h2).symm)
  have hd := discoverySeq_perm s ps1 ps2 hp
  exact List.Perm.append
    (List.Perm.map _ (List.Perm.map _ (List.Perm.filter _ hd)))
    (List.Perm.map _ (List.Perm.map _ (List.Perm.filter _ hd)))

lemma init_message_inv (ps : List PluginData) (d : Nat) (s : Settings) :
    ∀ e ∈ (PluginManager.init_manager (PluginManager.construct ps) d s).1.message_listeners,
      ∀ g ∈ e.2, g.matcher = e.1 ∧ g.kind = FuncKind.message := by
  rw [init_construct_msg]
  exact registerSeq_message_inv _ _ (by simp)

lemma init_webhook_inv (ps : List PluginData) (d : Nat) (s : Settings) :
    ∀ e ∈ (PluginManager.init_manager (PluginManager.construct ps) d s).1.webhook_listeners,
      ∀ g ∈ e.2, g.matcher = e.1 ∧ g.kind = FuncKind.webhook := by
  rw [init_construct_wh]
  exact registerSeq_webhook_inv _ _ (by simp)

/-- C5 counterexample: calling `Plugin.initialize` a second time does not
raise. The method body of `Plugin.initialize` (base.py lines 36 to 44) has no
guard and no raising path, so its embedding is a total function; evaluated on
a concrete already-initialized plugin state, a second call returns normally
with the references overwritten by the second arguments, contradicting the
claim that the second call raises a ConfigurationError. -/
theorem plugin_init_twice_counterexample :
    Plugin.init_plugin (Plugin.init_plugin (Plugin.construct none) 1 2 ⟨true⟩) 3 4 ⟨false⟩
      = { driver := some 3, plugin_manager := some 4, settings := some ⟨false⟩,
          docstring := none } := rfl

/-- C5 (amended): calling a plugin `initialize` a second time does not raise
and is not guarded: the second call silently re-stores the driver, manager
and settings references, overwriting the first ones, so the state after two
calls equals the state after the second call alone. No once-only transition
is enforced. -/
theorem plugin_init_twice_overwrites (p : PluginState) (d1 m1 : Nat)
    (s1 : Settings) (d2 m2 : Nat) (s2 : Settings) :
    Plugin.init_plugin (Plugin.init_plugin p d1 m1 s1) d2 m2 s2
      = Plugin.init_plugin p d2 m2 s2 := rfl

/-- C7: `Plugin.call_function` awaits a coroutine function in place (the
invocation is returned to the current cooperative context and the driver
threadpool is untouched), and otherwise submits exactly the triple of
function, event and captured groups to the driver threadpool and returns
nothing: no result or error of the submitted work is observed. -/
theorem call_function_dispatch (d : DriverState) (f : FunctionData)
    (event : Nat) (groups : List String) :
    (f.is_coroutine = true →
      Plugin.call_function d f event groups = (d, some (f, event, groups)))
    ∧ (f.is_coroutine = false →
      Plugin.call_function d f event groups
        = ({ threadpool := d.threadpool ++ [(f, event, groups)] }, none)) := by
  constructor <;> intro h <;> simp [Plugin.call_function, h]

/-- C7 witness: the dispatch dichotomy evaluated on the coroutine fixture
`exMsgA` and the blocking fixture `exMsgB`. -/
theorem call_function_dispatch_witness :
    (exMsgA.is_coroutine = true
      ∧ Plugin.call_function ⟨[]⟩ exMsgA 5 ["g"] = (⟨[]⟩, some (exMsgA, 5, ["g"])))
    ∧ (exMsgB.is_coroutine = false
      ∧ Plugin.call_function ⟨[]⟩ exMsgB 5 [] = (⟨[(exMsgB, 5, [])]⟩, none)) :=
  ⟨⟨rfl, (call_function_dispatch ⟨[]⟩ exMsgA 5 ["g"]).1 rfl⟩,
   ⟨rfl, (call_function_dispatch ⟨[]⟩ exMsgB 5 []).2 rfl⟩⟩

/-- C9: at class definition time the `HelpPlugin` attributes contain no
descriptor with pattern `^!help$`; after `HelpPlugin.initialize`, a
message-typed descriptor with pattern `^!help$` wrapping the same underlying
callable as the existing help handler is discoverable if and only if the
setting `RESPOND_CHANNEL_HELP` is enabled, and accordingly the initialized
manager has a `^!help$` routing bucket exactly when the flag is enabled. -/
theorem help_plugin_conditional_registration (s : Settings) :
    (∀ f ∈ ((HelpPlugin.data 0).attrs0.flatMap Attr.members), f.matcher ≠ "^!help$")
    ∧ ((∃ f ∈ (((HelpPlugin.data 0).postAttrs s).flatMap Attr.members),
          f.matcher = "^!help$" ∧ f.kind = FuncKind.message
            ∧ f.callable = HelpPlugin.helpFn.callable)
        ↔ s.RESPOND_CHANNEL_HELP = true)
    ∧ (lookupTable (PluginManager.init_manager
          (PluginManager.construct [HelpPlugin.data 0]) 0 s).1.message_listeners "^!help$"
        ≠ [] ↔ s.RESPOND_CHANNEL_HELP = true) := by
  obtain ⟨b⟩ := s
  cases b <;> decide

/-- C9 witness: with the flag enabled, the initialized manager holds a
nonempty `^!help$` bucket. -/
theorem help_plugin_conditional_registration_witness :
    lookupTable (PluginManager.init_manager
        (PluginManager.construct [HelpPlugin.data 0]) 0 ⟨true⟩).1.message_listeners "^!help$"
      ≠ [] ↔ (⟨true⟩ : Settings).RESPOND_CHANNEL_HELP = true :=
  (help_plugin_conditional_registration ⟨true⟩).2.2

/-- C3 counterexample: the raised error does not identify the offending
attribute. Two plugin lists that differ only in the name of the offending
attribute (`alpha` against `beta`) make `initialize_manager` raise the very
same `TypeError` message, which carries only the plugin class name and the
function type, so no attribute is identified. -/
theorem type_error_attr_counterexample :
    (PluginManager.init_manager (PluginManager.construct [exPlugAlpha]) 0 exSettings).2
        = (PluginManager.init_manager (PluginManager.construct [exPlugBeta]) 0 exSettings).2
      ∧ (PluginManager.init_manager (PluginManager.construct [exPlugAlpha]) 0 exSettings).2
        = some "P has a function of unsupported type Function."
      ∧ exPlugAlpha.attrs0 ≠ exPlugBeta.attrs0 := by
  refine ⟨by decide, by decide, by decide⟩

/-- C3 (amended): for every plugin whose discovered descriptors include one
that is neither message- nor webhook-typed, `initialize_manager` fails the
whole initialization by raising a `TypeError` that identifies the offending
plugin by its class name and the offending function by its type; the
attribute name is not part of the error. -/
theorem unsupported_descriptor_raises (ps : List PluginData) (d : Nat)
    (s : Settings) (pre post : List (PluginRef × FunctionData)) (ref : PluginRef)
    (f : FunctionData) (ty : String)
    (hsplit : discoverySeq s ps = pre ++ (ref, f) :: post)
    (hpre : ∀ e ∈ pre, e.2.kind.isSupported = true)
    (hf : f.kind = FuncKind.other ty) :
    (PluginManager.init_manager (PluginManager.construct ps) d s).2
      = some (typeErrMsg ref.className ty) := by
  rw [init_construct_err, hsplit,
    registerSeq_error_decomp _ _ _ _ _ _ hpre hf]

/-- C3 witness: the amended theorem applied to a one-plugin list whose only
descriptor is unsupported. -/
theorem unsupported_descriptor_raises_witness :
    discoverySeq exSettings [exPlugAlpha]
        = [] ++ (exPlugAlpha.ref, exBadFn) :: []
      ∧ exBadFn.kind = FuncKind.other "Function"
      ∧ (PluginManager.init_manager (PluginManager.construct [exPlugAlpha]) 0 exSettings).2
        = some (typeErrMsg "P" "Function") :=
  ⟨by decide, rfl,
    unsupported_descriptor_raises [exPlugAlpha] 0 exSettings [] []
      exPlugAlpha.ref exBadFn "Function" (by decide) (by simp) rfl⟩

/-- C10: initialization is not atomic on error. When the discovery sequence
splits into a supported prefix, an offending descriptor and a remainder,
`initialize_manager` raises the `TypeError` of the offending descriptor while
the tables keep exactly the insertions of the prefix (each with its plugin
attribute set), bucketed by pattern in processing order; nothing is rolled
back and nothing after the offending descriptor is inserted. -/
theorem init_manager_error_no_rollback (ps : List PluginData) (d : Nat)
    (s : Settings) (pre post : List (PluginRef × FunctionData)) (ref : PluginRef)
    (f : FunctionData) (ty : String)
    (hsplit : discoverySeq s ps = pre ++ (ref, f) :: post)
    (hpre : ∀ e ∈ pre, e.2.kind.isSupported = true)
    (hf : f.kind = FuncKind.other ty) :
    (PluginManager.init_manager (PluginManager.construct ps) d s).2
        = some (typeErrMsg ref.className ty)
    ∧ (∀ p, lookupTable (PluginManager.init_manager
          (PluginManager.construct ps) d s).1.message_listeners p
        = ((pre.filter fun e => e.2.kind.isMessage && e.2.matcher == p).map setOwner))
    ∧ (∀ p, lookupTable (PluginManager.init_manager
          (PluginManager.construct ps) d s).1.webhook_listeners p
        = ((pre.filter fun e => e.2.kind.isWebhook && e.2.matcher == p).map setOwner)) := by
  have hnone : (registerSeq (⟨[], []⟩ : Tables) pre).2 = none :=
    (registerSeq_none_iff _ _).mpr hpre
  have hdec := registerSeq_error_decomp (⟨[], []⟩ : Tables) pre ref f post ty hpre hf
  refine ⟨?_, ?_, ?_⟩
  · rw [init_construct_err, hsplit, hdec]
  · intro p
    rw [init_construct_msg, hsplit, hdec]
    have := registerSeq_message_lookup pre (⟨[], []⟩ : Tables) hnone p
    simpa using this
  · intro p
    rw [init_construct_wh, hsplit, hdec]
    have := registerSeq_webhook_lookup pre (⟨[], []⟩ : Tables) hnone p
    simpa using this

/-- C10 witness: a plugin with one supported handler followed by an
unsupported one; after the raise, the supported handler is still routed
under its pattern with its plugin attribute set. -/
theorem init_manager_error_no_rollback_witness :
    discoverySeq exSettings [exMixedPlugin]
        = [(exMixedPlugin.ref, exMsgA)] ++ (exMixedPlugin.ref, exBadFn) :: []
      ∧ (∀ e ∈ [(exMixedPlugin.ref, exMsgA)], e.2.kind.isSupported = true)
      ∧ exBadFn.kind = FuncKind.other "Function"
      ∧ (PluginManager.init_manager (PluginManager.construct [exMixedPlugin]) 0 exSettings).2
        = some (typeErrMsg "M" "Function")
      ∧ lookupTable (PluginManager.init_manager
            (PluginManager.construct [exMixedPlugin]) 0 exSettings).1.message_listeners "foo"
        = [{ exMsgA with plugin := some exMixedPlugin.ref }] := by
  refine ⟨by decide, by decide, rfl, ?_, by decide⟩
  exact (init_manager_error_no_rollback [exMixedPlugin] 0 exSettings
    [(exMixedPlugin.ref, exMsgA)] [] exMixedPlugin.ref exBadFn "Function"
    (by decide) (by decide) rfl).1

/-- C2: `get_help` on a freshly constructed manager returns the empty list;
after a successful `initialize_manager` it returns one record per routing
table entry, so its length equals the total entry count of the message table
plus the webhook table, which in turn equals the number of discovered
descriptors, every sibling counted individually. -/
theorem get_help_counts (ps : List PluginData) (d : Nat) (s : Settings) :
    PluginManager.get_help (PluginManager.construct ps) = .ok []
    ∧ ((PluginManager.init_manager (PluginManager.construct ps) d s).2 = none →
        PluginManager.get_help
            (PluginManager.init_manager (PluginManager.construct ps) d s).1
          = .ok (helpRecords
              (PluginManager.init_manager (PluginManager.construct ps) d s).1)
        ∧ (helpRecords
              (PluginManager.init_manager (PluginManager.construct ps) d s).1).length
          = (tableFlatten (PluginManager.init_manager
                (PluginManager.construct ps) d s).1.message_listeners).length
            + (tableFlatten (PluginManager.init_manager
                (PluginManager.construct ps) d s).1.webhook_listeners).length
        ∧ (tableFlatten (PluginManager.init_manager
              (PluginManager.construct ps) d s).1.message_listeners).length
            + (tableFlatten (PluginManager.init_manager
                (PluginManager.construct ps) d s).1.webhook_listeners).length
          = (discoverySeq s ps).length) := by
  refine ⟨rfl, ?_⟩
  intro h
  have hres := h
  rw [init_construct_err] at hres
  have hsup := (registerSeq_none_iff _ _).mp hres
  have hml : (tableFlatten (PluginManager.init_manager
        (PluginManager.construct ps) d s).1.message_listeners).length
      = ((discoverySeq s ps).filter fun e => e.2.kind.isMessage).length := by
    rw [init_construct_msg]
    have hlen := (registerSeq_message_flatten (discoverySeq s ps) ⟨[], []⟩ hres).length_eq
    simpa [tableFlatten] using hlen
  have hwl : (tableFlatten (PluginManager.init_manager
        (PluginManager.construct ps) d s).1.webhook_listeners).length
      = ((discoverySeq s ps).filter fun e => e.2.kind.isWebhook).length := by
    rw [init_construct_wh]
    have hlen := (registerSeq_webhook_flatten (discoverySeq s ps) ⟨[], []⟩ hres).length_eq
    simpa [tableFlatten] using hlen
  refine ⟨get_help_ok _ (init_message_inv ps d s) (init_webhook_inv ps d s), ?_, ?_⟩
  · simp [helpRecords]
  · rw [hml, hwl]
    exact filter_partition_length _ hsup

/-- C2 witness: a manager with one message plugin and one webhook plugin
initializes successfully, `get_help` returns its records and there are
exactly two of them. -/
theorem get_help_counts_witness :
    (PluginManager.init_manager
        (PluginManager.construct [exPluginA, exPluginW]) 0 exSettings).2 = none
    ∧ PluginManager.get_help (PluginManager.init_manager
        (PluginManager.construct [exPluginA, exPluginW]) 0 exSettings).1
      = .ok (helpRecords (PluginManager.init_manager
          (PluginManager.construct [exPluginA, exPluginW]) 0 exSettings).1)
    ∧ (helpRecords (PluginManager.init_manager
        (PluginManager.construct [exPluginA, exPluginW]) 0 exSettings).1).length = 2 := by
  refine ⟨by decide,
    ((get_help_counts [exPluginA, exPluginW] 0 exSettings).2 (by decide)).1, by decide⟩

/-- C6: after a successful initialization, for every pattern, the message and
webhook buckets hold exactly one entry per registration that declared the
pattern, in processing order, with the plugin attribute set and with no
deduplication: each bucket equals the correspondingly filtered discovery
sequence. -/
theorem routing_buckets_no_dedup (ps : List PluginData) (d : Nat) (s : Settings)
    (h : (PluginManager.init_manager (PluginManager.construct ps) d s).2 = none)
    (p : String) :
    lookupTable (PluginManager.init_manager
        (PluginManager.construct ps) d s).1.message_listeners p
      = ((discoverySeq s ps).filter
          fun e => e.2.kind.isMessage && e.2.matcher == p).map setOwner
    ∧ lookupTable (PluginManager.init_manager
        (PluginManager.construct ps) d s).1.webhook_listeners p
      = ((discoverySeq s ps).filter
          fun e => e.2.kind.isWebhook && e.2.matcher == p).map setOwner := by
  rw [init_construct_err] at h
  constructor
  · rw [init_construct_msg]
    have hl := registerSeq_message_lookup _ _ h p
    simpa using hl
  · rw [init_construct_wh]
    have hl := registerSeq_webhook_lookup _ _ h p
    simpa using hl

/-- C6 witness: a plugin registering the identical pattern `dup` twice from
one handler yields a two-entry bucket for `dup`, not a deduplicated one. -/
theorem routing_buckets_no_dedup_witness :
    (PluginManager.init_manager
        (PluginManager.construct [exDupPlugin]) 0 exSettings).2 = none
    ∧ lookupTable (PluginManager.init_manager
        (PluginManager.construct [exDupPlugin]) 0 exSettings).1.message_listeners "dup"
      = ((discoverySeq exSettings [exDupPlugin]).filter
          fun e => e.2.kind.isMessage && e.2.matcher == "dup").map setOwner
    ∧ (lookupTable (PluginManager.init_manager
        (PluginManager.construct [exDupPlugin]) 0 exSettings).1.message_listeners "dup").length
      = 2 := by
  refine ⟨by decide,
    (routing_buckets_no_dedup [exDupPlugin] 0 exSettings (by decide) "dup").1, by decide⟩

/-- C1 counterexample: descriptors declared on a plugin class are one shared
object per class, so with two instances of one class in the plugin list, the
walk of the second instance overwrites the plugin attribute assigned during
the walk of the first. The descriptor `exSharedFn` is discovered as an
attribute of the first instance, initialization completes, yet the final
value of the shared plugin attribute is the second instance, not the first:
the descriptor discovered from the first plugin does not have its plugin
field set to that owning plugin. -/
theorem shared_descriptor_ownership_counterexample :
    (exFake1.ref, exSharedFn) ∈ discoverySeq exSettings [exFake1, exFake2]
    ∧ (PluginManager.init_manager
        (PluginManager.construct [exFake1, exFake2]) 0 exSettings).2 = none
    ∧ finalOwner (discoverySeq exSettings [exFake1, exFake2]) exSharedFn.fid
      = some exFake2.ref
    ∧ exFake2.ref ≠ exFake1.ref := by
  refine ⟨by decide, by decide, by decide, by decide⟩

/-- C1 (amended): for every plugin list in which no descriptor object is
shared between distinct plugin references, after a successful
`initialize_manager` every descriptor of a handler built by stacking N
registrations is discoverable (the member count is N), shares the one
underlying callable, ends with its plugin attribute set to its owning plugin
(non-null), and its registered copy sits in exactly one routing bucket: the
bucket of its own pattern in the table of its own kind, and in no other
bucket of either table. Without the no-sharing hypothesis the plugin
attribute ends at the last discovering plugin instead. -/
theorem stacked_registration_ownership (ps : List PluginData) (d : Nat)
    (s : Settings) (P : PluginData) (hP : P ∈ ps) (name : String)
    (base c : Nat) (doc : Option String) (isCoro : Bool) (first : RegSpec)
    (rest : List RegSpec)
    (hattr : stackRegs name base c doc isCoro first rest ∈ P.postAttrs s)
    (hsucc : (PluginManager.init_manager (PluginManager.construct ps) d s).2 = none)
    (huniq : ∀ e1 ∈ discoverySeq s ps, ∀ e2 ∈ discoverySeq s ps,
      e1.2.fid = e2.2.fid → e1.1 = e2.1) :
    (stackRegs name base c doc isCoro first rest).members.length = 1 + rest.length
    ∧ ∀ f ∈ (stackRegs name base c doc isCoro first rest).members,
        f.callable = c
        ∧ finalOwner (discoverySeq s ps) f.fid = some P.ref
        ∧ (f.kind = FuncKind.message →
            { f with plugin := some P.ref }
                ∈ lookupTable (PluginManager.init_manager
                  (PluginManager.construct ps) d s).1.message_listeners f.matcher
            ∧ (∀ q, q ≠ f.matcher →
                { f with plugin := some P.ref } ∉ lookupTable (PluginManager.init_manager
                  (PluginManager.construct ps) d s).1.message_listeners q)
            ∧ (∀ q, { f with plugin := some P.ref } ∉ lookupTable (PluginManager.init_manager
                  (PluginManager.construct ps) d s).1.webhook_listeners q))
        ∧ (f.kind = FuncKind.webhook →
            { f with plugin := some P.ref }
                ∈ lookupTable (PluginManager.init_manager
                  (PluginManager.construct ps) d s).1.webhook_listeners f.matcher
            ∧ (∀ q, q ≠ f.matcher →
                { f with plugin := some P.ref } ∉ lookupTable (PluginManager.init_manager
                  (PluginManager.construct ps) d s).1.webhook_listeners q)
            ∧ (∀ q, { f with plugin := some P.ref } ∉ lookupTable (PluginManager.init_manager
                  (PluginManager.construct ps) d s).1.message_listeners q)) := by
  have herr := hsucc
  rw [init_construct_err] at herr
  have hmsg : ∀ p, lookupTable (PluginManager.init_manager
      (PluginManager.construct ps) d s).1.message_listeners p
      = ((discoverySeq s ps).filter
          fun e => e.2.kind.isMessage && e.2.matcher == p).map setOwner := by
    intro p
    rw [init_construct_msg]
    simpa using registerSeq_message_lookup _ _ herr p
  have hwh : ∀ p, lookupTable (PluginManager.init_manager
      (PluginManager.construct ps) d s).1.webhook_listeners p
      = ((discoverySeq s ps).filter
          fun e => e.2.kind.isWebhook && e.2.matcher == p).map setOwner := by
    intro p
    rw [init_construct_wh]
    simpa using registerSeq_webhook_lookup _ _ herr p
  refine ⟨stackRegs_members_length name base c doc isCoro first rest, ?_⟩
  intro f hf
  have hmem : (P.ref, f) ∈ discoverySeq s ps :=
    mem_discoverySeq s ps P hP _ hattr f hf
  refine ⟨stackRegs_members_callable name base c doc isCoro first rest f hf,
    finalOwner_eq_of_unique _ _ _ hmem huniq, ?_, ?_⟩
  · intro hkm
    refine ⟨?_, ?_, ?_⟩
    · rw [hmsg f.matcher]
      refine List.mem_map.mpr ⟨(P.ref, f), ?_, rfl⟩
      exact List.mem_filter.mpr ⟨hmem, by simp [hkm, FuncKind.isMessage]⟩
    · intro q hq hcontra
      rw [hmsg q] at hcontra
      have hmq := (mem_message_bucket_inv _ _ _ hcontra).1
      have hmq2 : f.matcher = q := hmq
      exact hq hmq2.symm
    · intro q hcontra
      rw [hwh q] at hcontra
      have hkq := (mem_webhook_bucket_inv _ _ _ hcontra).2
      have hkq2 : f.kind = FuncKind.webhook := hkq
      rw [hkm] at hkq2
      exact FuncKind.noConfusion hkq2
  · intro hkw
    refine ⟨?_, ?_, ?_⟩
    · rw [hwh f.matcher]
      refine List.mem_map.mpr ⟨(P.ref, f), ?_, rfl⟩
      exact List.mem_filter.mpr ⟨hmem, by simp [hkw, FuncKind.isWebhook]⟩
    · intro q hq hcontra
      rw [hwh q] at hcontra
      have hmq := (mem_webhook_bucket_inv _ _ _ hcontra).1
      have hmq2 : f.matcher = q := hmq
      exact hq hmq2.symm
    · intro q hcontra
      rw [hmsg q] at hcontra
      have hkq := (mem_message_bucket_inv _ _ _ hcontra).2
      have hkq2 : f.kind = FuncKind.message := hkq
      rw [hkw] at hkq2
      exact FuncKind.noConfusion hkq2

/-- C1 witness: the amended theorem applied to a plugin carrying a doubly
decorated handler (two stacked registrations, fids 30 and 31, shared
callable 6), in a one-plugin manager where no object is shared. -/
theorem stacked_registration_ownership_witness :
    (stackRegs "my_async_function" 30 6 (some "Async doc.") true exReg1 [exReg2]
        ∈ exStackPlugin.postAttrs exSettings)
    ∧ (PluginManager.init_manager
        (PluginManager.construct [exStackPlugin]) 0 exSettings).2 = none
    ∧ (∀ e1 ∈ discoverySeq exSettings [exStackPlugin],
        ∀ e2 ∈ discoverySeq exSettings [exStackPlugin],
          e1.2.fid = e2.2.fid → e1.1 = e2.1)
    ∧ ((stackRegs "my_async_function" 30 6 (some "Async doc.") true exReg1 [exReg2]).members.length
        = 2
      ∧ ∀ f ∈ (stackRegs "my_async_function" 30 6 (some "Async doc.") true exReg1 [exReg2]).members,
          f.callable = 6
          ∧ finalOwner (discoverySeq exSettings [exStackPlugin]) f.fid = some exStackPlugin.ref
          ∧ (f.kind = FuncKind.message →
              { f with plugin := some exStackPlugin.ref }
                  ∈ lookupTable (PluginManager.init_manager
                    (PluginManager.construct [exStackPlugin]) 0 exSettings).1.message_listeners f.matcher
              ∧ (∀ q, q ≠ f.matcher →
                  { f with plugin := some exStackPlugin.ref } ∉ lookupTable (PluginManager.init_manager
                    (PluginManager.construct [exStackPlugin]) 0 exSettings).1.message_listeners q)
              ∧ (∀ q, { f with plugin := some exStackPlugin.ref } ∉ lookupTable (PluginManager.init_manager
                    (PluginManager.construct [exStackPlugin]) 0 exSettings).1.webhook_listeners q))
          ∧ (f.kind = FuncKind.webhook →
              { f with plugin := some exStackPlugin.ref }
                  ∈ lookupTable (PluginManager.init_manager
                    (PluginManager.construct [exStackPlugin]) 0 exSettings).1.webhook_listeners f.matcher
              ∧ (∀ q, q ≠ f.matcher →
                  { f with plugin := some exStackPlugin.ref } ∉ lookupTable (PluginManager.init_manager
                    (PluginManager.construct [exStackPlugin]) 0 exSettings).1.webhook_listeners q)
              ∧ (∀ q, { f with plugin := some exStackPlugin.ref } ∉ lookupTable (PluginManager.init_manager
                    (PluginManager.construct [exStackPlugin]) 0 exSettings).1.message_listeners q))) := by
  refine ⟨by decide, by decide, by decide, ?_⟩
  exact stacked_registration_ownership [exStackPlugin] 0 exSettings exStackPlugin
    (List.mem_singleton.mpr rfl) "my_async_function" 30 6 (some "Async doc.") true
    exReg1 [exReg2] (by decide) (by decide) (by decide)

/-- C4 counterexample: the composite sort keys of the handlers of exPluginA
(pattern `foo`) and exPluginB (pattern `^foo`, which strips to `foo`)
coincide, so the stable sort keeps insertion order; swapping only the
declaration order of the two plugins swaps the two help lines and changes
the byte output, although both managers hold the same plugins and
initialize successfully. The tie is not broken by pattern text. -/
theorem help_string_order_counterexample :
    ([exPluginA, exPluginB].Perm [exPluginB, exPluginA])
    ∧ (PluginManager.init_manager
        (PluginManager.construct [exPluginA, exPluginB]) 0 exSettings).2 = none
    ∧ (PluginManager.init_manager
        (PluginManager.construct [exPluginB, exPluginA]) 0 exSettings).2 = none
    ∧ ¬ ((helpRecords (PluginManager.init_manager
        (PluginManager.construct [exPluginA, exPluginB]) 0 exSettings).1).map custom_sort).Nodup
    ∧ HelpPlugin.get_help_string (PluginManager.init_manager
        (PluginManager.construct [exPluginA, exPluginB]) 0 exSettings).1
      ≠ HelpPlugin.get_help_string (PluginManager.init_manager
        (PluginManager.construct [exPluginB, exPluginA]) 0 exSettings).1 := by
  refine ⟨List.Perm.swap exPluginB exPluginA [], by decide, by decide, by decide, by decide⟩

/-- C4 (amended): `get_help_string` is deterministic on a fixed manager (it
is a function of the registration state), and when the composite sort keys
of the help records are pairwise distinct, constructing the manager from the
same plugins in a different declaration order and initializing it
identically yields byte-identical output. With tied keys the stable sort
preserves insertion order, so declaration order can then change the output
(see the counterexample). -/
theorem help_string_determinism (ps1 ps2 : List PluginData) (d : Nat)
    (s : Settings) (hperm : ps1.Perm ps2)
    (h1 : (PluginManager.init_manager (PluginManager.construct ps1) d s).2 = none)
    (hnd : ((helpRecords (PluginManager.init_manager
        (PluginManager.construct ps1) d s).1).map custom_sort).Nodup) :
    HelpPlugin.get_help_string
        (PluginManager.init_manager (PluginManager.construct ps1) d s).1
      = HelpPlugin.get_help_string
        (PluginManager.init_manager (PluginManager.construct ps1) d s).1
    ∧ HelpPlugin.get_help_string
        (PluginManager.init_manager (PluginManager.construct ps1) d s).1
      = HelpPlugin.get_help_string
        (PluginManager.init_manager (PluginManager.construct ps2) d s).1 := by
  refine ⟨rfl, ?_⟩
  have h2 := init_success_of_perm ps1 ps2 d s hperm h1
  have hrecperm := helpRecords_perm_of_plugin_perm ps1 ps2 d s hperm h1 h2
  have hs1 := get_help_string_ok
    (PluginManager.init_manager (PluginManager.construct ps1) d s).1
    (init_message_inv ps1 d s) (init_webhook_inv ps1 d s)
  have hs2 := get_help_string_ok
    (PluginManager.init_manager (PluginManager.construct ps2) d s).1
    (init_message_inv ps2 d s) (init_webhook_inv ps2 d s)
  rw [hs1, hs2]
  have hSperm :
      (sortStable recLE (helpRecords (PluginManager.init_manager
          (PluginManager.construct ps1) d s).1)).Perm
        (sortStable recLE (helpRecords (PluginManager.init_manager
          (PluginManager.construct ps2) d s).1)) :=
    ((sortStable_perm recLE _).trans hrecperm).trans (sortStable_perm recLE _).symm
  have hnd1 : ((sortStable recLE (helpRecords (PluginManager.init_manager
      (PluginManager.construct ps1) d s).1)).map custom_sort).Nodup :=
    (List.Perm.nodup_iff
      (List.Perm.map custom_sort (sortStable_perm recLE _))).mpr hnd
  have heq := eq_of_perm_of_sorted_of_nodupKeys custom_sort _ _ hSperm
    (sortStable_recLE_sorted _) (sortStable_recLE_sorted _) hnd1
  rw [heq]

/-- C4 witness: two plugins with distinct composite keys (patterns `foo` and
`bar`); both declaration orders give byte-identical sorted output. -/
theorem help_string_determinism_witness :
    ([exPluginA, exPluginC].Perm [exPluginC, exPluginA])
    ∧ (PluginManager.init_manager
        (PluginManager.construct [exPluginA, exPluginC]) 0 exSettings).2 = none
    ∧ ((helpRecords (PluginManager.init_manager
        (PluginManager.construct [exPluginA, exPluginC]) 0 exSettings).1).map custom_sort).Nodup
    ∧ HelpPlugin.get_help_string (PluginManager.init_manager
        (PluginManager.construct [exPluginA, exPluginC]) 0 exSettings).1
      = HelpPlugin.get_help_string (PluginManager.init_manager
        (PluginManager.construct [exPluginC, exPluginA]) 0 exSettings).1 := by
  refine ⟨List.Perm.swap exPluginC exPluginA [], by decide, by decide, ?_⟩
  exact (help_string_determinism [exPluginA, exPluginC] [exPluginC, exPluginA] 0
    exSettings (List.Perm.swap exPluginC exPluginA []) (by decide) (by decide)).2

/-- C8: the help string of an initialized manager is the fixed preamble
followed by the flattened records sorted stably by the composite key
(category annotation else empty first, kind with message before webhook,
pattern with leading characters from the set caret, bracket, paren, dash
stripped), where a category header line is emitted exactly at the positions
of the sorted sequence whose category differs from the category of the
previous record (missing rendered as `uncategorized`): the emitted body
equals the claim-side positional rendering `specBody`, the sorted sequence
is a permutation of the records, and it is ordered by the claim-side key. -/
theorem help_string_sort_and_headers (ps : List PluginData) (d : Nat)
    (s : Settings)
    (_h : (PluginManager.init_manager (PluginManager.construct ps) d s).2 = none) :
    HelpPlugin.get_help_string
        (PluginManager.init_manager (PluginManager.construct ps) d s).1
      = .ok (helpPreamble ++ specBody (sortStable recLE (helpRecords
          (PluginManager.init_manager (PluginManager.construct ps) d s).1)))
    ∧ (sortStable recLE (helpRecords
        (PluginManager.init_manager (PluginManager.construct ps) d s).1)).Perm
      (helpRecords (PluginManager.init_manager (PluginManager.construct ps) d s).1)
    ∧ (sortStable recLE (helpRecords
        (PluginManager.init_manager (PluginManager.construct ps) d s).1)).Pairwise specLE := by
  have hm := init_message_inv ps d s
  have hw := init_webhook_inv ps d s
  refine ⟨?_, sortStable_perm recLE _, ?_⟩
  · rw [get_help_string_ok _ hm hw, specBody_eq_helpBody]
  · have hsorted := sortStable_recLE_sorted (helpRecords
      (PluginManager.init_manager (PluginManager.construct ps) d s).1)
    have htypes := helpRecords_help_type _ hm hw
    refine List.Pairwise.imp_of_mem ?_ hsorted
    intro a b ha hb hr
    exact specLE_of_recLE a b
      (htypes a ((sortStable_perm recLE _).subset ha))
      (htypes b ((sortStable_perm recLE _).subset hb)) hr

/-- C8 witness: a manager with one webhook plugin declared before one
message plugin; the rendered help string equals the claim-side rendering and
the sorted records are ordered by the claim-side key (message first). -/
theorem help_string_sort_and_headers_witness :
    (PluginManager.init_manager
        (PluginManager.construct [exPluginW, exPluginA]) 0 exSettings).2 = none
    ∧ HelpPlugin.get_help_string (PluginManager.init_manager
        (PluginManager.construct [exPluginW, exPluginA]) 0 exSettings).1
      = .ok (helpPreamble ++ specBody (sortStable recLE (helpRecords
          (PluginManager.init_manager
            (PluginManager.construct [exPluginW, exPluginA]) 0 exSettings).1)))
    ∧ (sortStable recLE (helpRecords (PluginManager.init_manager
        (PluginManager.construct [exPluginW, exPluginA]) 0 exSettings).1)).Pairwise specLE := by
  refine ⟨by decide,
    (help_string_sort_and_headers [exPluginW, exPluginA] 0 exSettings (by decide)).1,
    (help_string_sort_and_headers [exPluginW, exPluginA] 0 exSettings (by decide)).2.2⟩
